import Mathlib

/-!
Shallow embedding of `vt100.py` (a VT100/ANSI terminal emulator) in Lean 4.

The Python module parses a byte stream of printable text, C0 controls,
escape sequences and CSI control sequences, maintaining a screen buffer
(a `height × width` grid of optional cells), a cursor, tab stops, a
scrollback history and a current graphic-attribute map.  Pure fragments
become Lean functions; the mutable `Terminal` object becomes explicit
state passing; Python exceptions that the code can raise (TypeError from
`next()` on a list, numpy broadcast ValueError, RuntimeError for an
unknown parser state, InvalidParameterListError) become an `Except` error
monad.  List slicing mirrors Python/numpy slice semantics (negative index
resolution, clamping, and the equal-length requirement of numpy slice
assignment).
-/

set_option maxRecDepth 10000

/-- Errors that can escape the Python code: `InvalidParameterListError`
(caught by `dispatch_control_sequence`), numpy broadcast `ValueError`,
`TypeError` (e.g. `next()` applied to a list), and the `RuntimeError`
raised by `parse_single` for a state with no `parse_*` method. -/
inductive Err where
  | invalidParamList
  | broadcast
  | typeErr
  | internalErr
deriving DecidableEq, Repr

/-- Attribute values: strings (color names, `'bold'`, …) or the bare
Python `True` used by e.g. `set_attr('inverse')`. -/
inductive AttrVal where
  | str (s : String)
  | flag
deriving DecidableEq, Repr

/-- The attribute map `self.attr`: a Python dict from key to value,
modelled as an association list without duplicate keys. -/
abbrev Attr := List (String × AttrVal)

/-- `self.attr[key] = value` (dict assignment: overwrite or append). -/
def set_attr (a : Attr) (k : String) (v : AttrVal) : Attr :=
  if a.any (fun p => p.1 = k) then
    a.map (fun p => if p.1 = k then (k, v) else p)
  else a ++ [(k, v)]

/-- `del self.attr[key]` guarded by `except KeyError: pass`. -/
def clear_attr (a : Attr) (k : String) : Attr :=
  a.filter (fun p => p.1 ≠ k)

/-- `class Character`: a single character with a snapshot of the
attribute map at write time. -/
structure Character where
  char : Char
  attr : Attr
deriving DecidableEq, Repr

/-- One screen row: Python stores `None` (never written) or a `Character`. -/
abbrev Row := List (Option Character)

/-- A row of `width` absent cells, as produced by `[None]*width` or a numpy
scalar `None` fill. -/
def blankRow (w : Nat) : Row := List.replicate w none

/-- `s.split(';')` on the character list (`''.split(';') == ['']`). -/
def splitSemis : List Char → List (List Char)
  | [] => [[]]
  | c :: rest =>
      let r := splitSemis rest
      if c = ';' then [] :: r
      else
        match r with
        | tok :: toks => (c :: tok) :: toks
        | [] => [[c]]

/-- Python `int(token)` restricted to the tokens that can occur in a CSI
parameter field (bytes `0x30–0x3f`, so no sign or whitespace): succeeds
exactly on a nonempty all-digit token. -/
def py_int (tok : List Char) : Option Nat :=
  if tok ≠ [] ∧ tok.all (fun c => '0' ≤ c ∧ c ≤ '9') then
    some (tok.foldl (fun n c => n * 10 + (c.toNat - 0x30)) 0)
  else none

/-- The folding step of Python `int()` over a digit string. -/
def pyIntStep (a : Nat) (c : Char) : Nat := a * 10 + (c.toNat - 0x30)

/-- `param_list(s, default, zero_is_default, min_length)`: split on `';'`,
empty token gives `default`, `0` gives `default` when `zero_is_default`,
a non-numeric token raises `InvalidParameterListError`; pad with `default`
to `min_length`. -/
def param_list (s : Option String) (dflt : Nat) (zeroIsDefault : Bool)
    (minLength : Nat) : Except Err (List Nat) :=
  let tokens := match s with
    | none => Except.ok ([] : List Nat)
    | some str =>
      (splitSemis str.data).mapM (fun tok =>
        match tok with
        | [] => Except.ok dflt
        | _ =>
          match py_int tok with
          | some v =>
              if zeroIsDefault ∧ v = 0 then Except.ok dflt else Except.ok v
          | none => Except.error Err.invalidParamList)
  match tokens with
  | Except.ok l => Except.ok (l ++ List.replicate (minLength - l.length) dflt)
  | Except.error e => Except.error e

/-- `clip(n, stop)`: clamp `n` into `range(0, stop)` — the two-argument
form used throughout the source. -/
def clip (n stop : Int) : Int :=
  if n < 0 then 0 else if n ≥ stop then stop - 1 else n

/-- Resolve a Python slice endpoint against a sequence of length `len`:
a negative index has `len` added, then the result is clamped to
`[0, len]`. -/
def resolveIdx (len : Nat) (i : Int) : Nat :=
  let j := if i < 0 then i + len else i
  if j < 0 then 0 else min j.toNat len

/-- `l[a:b]` with unit step. -/
def pySlice {α : Type} (l : List α) (a b : Int) : List α :=
  (l.take (resolveIdx l.length b)).drop (resolveIdx l.length a)

/-- numpy slice assignment `l[a:b] = repl`: the replacement must have
exactly the length of the selected span, otherwise a broadcast
`ValueError` is raised. -/
def pySetSlice {α : Type} (l : List α) (a b : Int) (repl : List α) :
    Except Err (List α) :=
  let lo := resolveIdx l.length a
  let hi := max lo (resolveIdx l.length b)
  if repl.length = hi - lo then
    Except.ok (l.take lo ++ repl ++ l.drop hi)
  else Except.error Err.broadcast

/-- numpy scalar-broadcast assignment `l[a:b] = v` (every selected slot
becomes `v`; no length constraint). -/
def pyFillSlice {α : Type} (l : List α) (a b : Int) (v : α) : List α :=
  let lo := resolveIdx l.length a
  let hi := max lo (resolveIdx l.length b)
  l.take lo ++ List.replicate (hi - lo) v ++ l.drop hi

/-- The eight parser states. -/
inductive PState where
  | ground | escape | control_sequence | osc | dcs | sos | pm | apc
deriving DecidableEq, Repr

/-- The state of one `Terminal` instance. -/
structure Terminal where
  state : PState
  prevState : Option PState
  nextState : Option PState
  history : List Row
  width : Nat
  height : Nat
  screen : List Row
  row : Int
  col : Int
  previous : Char
  current : Char
  tabstops : List Bool
  attr : Attr
  collected : String
deriving DecidableEq, Repr

/-- `Terminal.__init__(height, width)`. -/
def mkTerm (height width : Nat) : Terminal :=
  { state := PState.ground
    prevState := none
    nextState := none
    history := []
    width := width
    height := height
    screen := List.replicate height (List.replicate width none)
    row := 0
    col := 0
    previous := '\x00'
    current := '\x00'
    tabstops := (List.range width).map (fun i => decide (i % 8 = 0))
    attr := []
    collected := "" }

/-- A concrete 1×2 terminal whose single row holds `A B`, cursor at
column 1 — used as a witness input. -/
def exTermRowAB : Terminal :=
  { mkTerm 1 2 with
      screen := [[some ⟨'A', []⟩, some ⟨'B', []⟩]]
      col := 1 }

/-- Write `v` at cell `(r, c)` (`self.screen[self.pos] = c`); on reachable
states the indices are in range. -/
def setCell (s : List Row) (r c : Int) (v : Option Character) : List Row :=
  if 0 ≤ r ∧ 0 ≤ c then
    s.set r.toNat ((s.getD r.toNat []).set c.toNat v)
  else s

/-- Read cell `(r, c)` of a screen (absent outside the grid). -/
def getCell (s : List Row) (r c : Nat) : Option Character :=
  (s.getD r []).getD c none

/-- `Terminal.scroll(n, top, bottom)`: move the rows of `[top, bottom)`
upward by `n` (or downward by `|n|` when `n < 0`).  When `top == 0` and
`n > 0` the top `n` rows (`s[:n]`) are first appended to the history;
when `n` exceeds the region height, `n - self.height` blank rows are also
appended and `n` is clamped to `self.height`.  The two slice assignments
follow numpy semantics (the first can raise a broadcast `ValueError`). -/
def scroll (t : Terminal) (n : Int) (top bottom : Option Int) :
    Except Err Terminal :=
  let top := top.getD 0
  let bottom := bottom.getD (t.height : Int)
  let hr : Int := bottom - top
  if n > 0 then
    let hist1 := if top = 0 then t.history ++ pySlice t.screen 0 n
                 else t.history
    let hist2 := if n > hr then
                   hist1 ++ List.replicate (n - (t.height : Int)).toNat
                     (blankRow t.width)
                 else hist1
    let n' := if n > hr then (t.height : Int) else n
    match pySetSlice t.screen top (bottom - n')
        (pySlice t.screen (top + n') bottom) with
    | Except.ok s1 =>
        Except.ok { t with history := hist2
                           screen := pyFillSlice s1 (bottom - n') bottom
                                       (blankRow t.width) }
    | Except.error e => Except.error e
  else if n < 0 then
    let m : Int := -n
    let m := if m > (t.height : Int) then (t.height : Int) else m
    match pySetSlice t.screen (top + m) bottom
        (pySlice t.screen top (bottom - m)) with
    | Except.ok s1 =>
        Except.ok { t with screen := pyFillSlice s1 top (top + m)
                                       (blankRow t.width) }
    | Except.error e => Except.error e
  else Except.ok t

/-- `IND` (Index, also the body of `LF`): move down one row, scrolling at
the bottom of the screen. -/
def IND (t : Terminal) : Except Err Terminal :=
  if t.row < (t.height : Int) - 1 then
    Except.ok { t with row := t.row + 1 }
  else scroll t 1 none none

/-- `NEL` (Next Line): `IND` followed by carriage return. -/
def NEL (t : Terminal) : Except Err Terminal := do
  let t ← IND t
  pure { t with col := 0 }

/-- `RI` (Reverse Index): move up one row, scrolling down at the top. -/
def RI (t : Terminal) : Except Err Terminal :=
  if t.row > 0 then Except.ok { t with row := t.row - 1 }
  else scroll t (-1) none none

/-- `Terminal.output(c)`: wrap via `NEL` if the column is past the end of
the line, then write a `Character` carrying a copy of the current
attribute map and advance the cursor (possibly to `col = width`). -/
def output (t : Terminal) (c : Char) : Except Err Terminal := do
  let t ← if t.col ≥ (t.width : Int) then NEL t else pure t
  pure { t with screen := setCell t.screen t.row t.col (some ⟨c, t.attr⟩)
                col := t.col + 1 }

/-- `BS` (Backspace): `self.col -= 1 if self.col > 0 else 0`. -/
def BS (t : Terminal) : Terminal :=
  { t with col := t.col - (if t.col > 0 then 1 else 0) }

/-- The loop of `HT`: `while col < width-1: col += 1; if tabstops[col]:
break`, with fuel bounding the number of iterations. -/
def htLoop (tabs : List Bool) (width : Int) : Nat → Int → Int
  | 0, col => col
  | fuel + 1, col =>
      if col < width - 1 then
        let col := col + 1
        if tabs.getD col.toNat false then col
        else htLoop tabs width fuel col
      else col

/-- `HT` (Horizontal Tab): advance to the next tab stop, stopping at
column `width - 1`. -/
def HT (t : Terminal) : Terminal :=
  { t with col := htLoop t.tabstops (t.width : Int)
                    ((t.width : Int) - 1 - t.col).toNat t.col }

/-- One iteration of `CBT`'s outer loop: `while col > 0: col -= 1;
if tabstops[col]: break`. -/
def cbtLoop (tabs : List Bool) : Nat → Int → Int
  | 0, col => col
  | fuel + 1, col =>
      if col > 0 then
        let col := col - 1
        if tabs.getD col.toNat false then col
        else cbtLoop tabs fuel col
      else col

/-- `execute(c)`: run the C0 command registered for `c`.  `BEL` and every
`NotImplemented` command are no-ops; `CAN`/`SUB` force the ground state,
`ESC` enters the escape state. -/
def execute (t : Terminal) (c : Char) : Except Err Terminal :=
  match c.toNat with
  | 0x08 => Except.ok (BS t)
  | 0x09 => Except.ok (HT t)
  | 0x0a => IND t
  | 0x0b => IND t
  | 0x0c => IND t
  | 0x0d => Except.ok { t with col := 0 }
  | 0x18 => Except.ok { t with nextState := some PState.ground }
  | 0x1a => Except.ok { t with nextState := some PState.ground }
  | 0x1b => Except.ok { t with nextState := some PState.escape }
  | _ => Except.ok t

/-- The names registered in `Terminal.escape_sequences` by `@escape(...)`. -/
inductive EscName where
  | IND | NEL | HTS | RI | DCS | SOS | CSI | ST | OSC | PM | APC
  | DECSC | DECRC | DECPAM | DECPNM | SS2 | SS3
  | S7C1T | S8C1T | set_ansi_level_1 | set_ansi_level_2 | set_ansi_level_3
  | BPH | NBH | SSA | ESA | HTJ | VTS | PLD | PLU | PU1 | PU2 | STS
  | CCH | MW | SPA | EPA | SCI | INT | EMI | RIS | CMD
deriving DecidableEq, Repr

/-- `Terminal.escape_sequences`: the table built by the `@escape(key)`
decorators, mapping a key string (intermediates + final byte) to the
registered handler name. -/
def escape_sequences (key : String) : Option EscName :=
  if key = "D" then some EscName.IND
  else if key = "E" then some EscName.NEL
  else if key = "H" then some EscName.HTS
  else if key = "M" then some EscName.RI
  else if key = "P" then some EscName.DCS
  else if key = "X" then some EscName.SOS
  else if key = "[" then some EscName.CSI
  else if key = "\\" then some EscName.ST
  else if key = "]" then some EscName.OSC
  else if key = "^" then some EscName.PM
  else if key = "_" then some EscName.APC
  else if key = "7" then some EscName.DECSC
  else if key = "8" then some EscName.DECRC
  else if key = "=" then some EscName.DECPAM
  else if key = ">" then some EscName.DECPNM
  else if key = "N" then some EscName.SS2
  else if key = "O" then some EscName.SS3
  else if key = " F" then some EscName.S7C1T
  else if key = " G" then some EscName.S8C1T
  else if key = " L" then some EscName.set_ansi_level_1
  else if key = " M" then some EscName.set_ansi_level_2
  else if key = " N" then some EscName.set_ansi_level_3
  else if key = "B" then some EscName.BPH
  else if key = "C" then some EscName.NBH
  else if key = "F" then some EscName.SSA
  else if key = "G" then some EscName.ESA
  else if key = "I" then some EscName.HTJ
  else if key = "J" then some EscName.VTS
  else if key = "K" then some EscName.PLD
  else if key = "L" then some EscName.PLU
  else if key = "Q" then some EscName.PU1
  else if key = "R" then some EscName.PU2
  else if key = "S" then some EscName.STS
  else if key = "T" then some EscName.CCH
  else if key = "U" then some EscName.MW
  else if key = "V" then some EscName.SPA
  else if key = "W" then some EscName.EPA
  else if key = "Z" then some EscName.SCI
  else if key = "a" then some EscName.INT
  else if key = "b" then some EscName.EMI
  else if key = "c" then some EscName.RIS
  else if key = "d" then some EscName.CMD
  else none

/-- Run the escape handler named `h`.  `HTS` sets the tab stop at the
cursor column; `DCS`/`SOS`/`CSI`/`OSC`/`PM`/`APC` switch parser state;
`ST` and all `NotImplemented` handlers do nothing. -/
def run_escape (t : Terminal) (h : EscName) : Except Err Terminal :=
  match h with
  | EscName.IND => IND t
  | EscName.NEL => NEL t
  | EscName.HTS =>
      Except.ok { t with tabstops :=
        if 0 ≤ t.col then t.tabstops.set t.col.toNat true else t.tabstops }
  | EscName.RI => RI t
  | EscName.DCS => Except.ok { t with nextState := some PState.dcs }
  | EscName.SOS => Except.ok { t with nextState := some PState.sos }
  | EscName.CSI => Except.ok { t with nextState := some PState.control_sequence }
  | EscName.OSC => Except.ok { t with nextState := some PState.osc }
  | EscName.PM => Except.ok { t with nextState := some PState.pm }
  | EscName.APC => Except.ok { t with nextState := some PState.apc }
  | _ => Except.ok t

/-- The names registered in `Terminal.control_sequences` by
`@control(...)`. -/
inductive CtrlName where
  | ICH | CUU | CUD | CUF | CUB | CNL | CPL | CHA | CUP | CHT
  | ED | EL | IL | DL | DCH | SU | SD | ECH | CBT
  | HPA | HPR | REP | VPA | VPR | HVP | TBC | SM | HPB | VPB | RM | SGR
  | DECSTR | DECSTBM | DECCARA | save_cursor | DECRARA | restore_cursor
  | DA | MC | DSR | DECSCL | DECSCA | window_manipulation
  | EF | EA | SSE | CPR | NP | PP | CTC | CVT | SRS | PTX | SDS | SIMD | DAQ
deriving DecidableEq, Repr

/-- `Terminal.control_sequences`: the table built by the `@control(key)`
decorators (key = intermediate bytes + final byte). -/
def control_sequences (key : String) : Option CtrlName :=
  if key = "@" then some CtrlName.ICH
  else if key = "A" then some CtrlName.CUU
  else if key = "B" then some CtrlName.CUD
  else if key = "C" then some CtrlName.CUF
  else if key = "D" then some CtrlName.CUB
  else if key = "E" then some CtrlName.CNL
  else if key = "F" then some CtrlName.CPL
  else if key = "G" then some CtrlName.CHA
  else if key = "H" then some CtrlName.CUP
  else if key = "I" then some CtrlName.CHT
  else if key = "J" then some CtrlName.ED
  else if key = "K" then some CtrlName.EL
  else if key = "L" then some CtrlName.IL
  else if key = "M" then some CtrlName.DL
  else if key = "P" then some CtrlName.DCH
  else if key = "S" then some CtrlName.SU
  else if key = "T" then some CtrlName.SD
  else if key = "X" then some CtrlName.ECH
  else if key = "Z" then some CtrlName.CBT
  else if key = "`" then some CtrlName.HPA
  else if key = "a" then some CtrlName.HPR
  else if key = "b" then some CtrlName.REP
  else if key = "d" then some CtrlName.VPA
  else if key = "e" then some CtrlName.VPR
  else if key = "f" then some CtrlName.HVP
  else if key = "g" then some CtrlName.TBC
  else if key = "h" then some CtrlName.SM
  else if key = "j" then some CtrlName.HPB
  else if key = "k" then some CtrlName.VPB
  else if key = "l" then some CtrlName.RM
  else if key = "m" then some CtrlName.SGR
  else if key = "!p" then some CtrlName.DECSTR
  else if key = "r" then some CtrlName.DECSTBM
  else if key = "$r" then some CtrlName.DECCARA
  else if key = "s" then some CtrlName.save_cursor
  else if key = "$t" then some CtrlName.DECRARA
  else if key = "u" then some CtrlName.restore_cursor
  else if key = "c" then some CtrlName.DA
  else if key = "i" then some CtrlName.MC
  else if key = "n" then some CtrlName.DSR
  else if key = "\"p" then some CtrlName.DECSCL
  else if key = "\"q" then some CtrlName.DECSCA
  else if key = "t" then some CtrlName.window_manipulation
  else if key = "N" then some CtrlName.EF
  else if key = "O" then some CtrlName.EA
  else if key = "Q" then some CtrlName.SSE
  else if key = "R" then some CtrlName.CPR
  else if key = "U" then some CtrlName.NP
  else if key = "V" then some CtrlName.PP
  else if key = "W" then some CtrlName.CTC
  else if key = "Y" then some CtrlName.CVT
  else if key = "[" then some CtrlName.SRS
  else if key = "\\" then some CtrlName.PTX
  else if key = "]" then some CtrlName.SDS
  else if key = "^" then some CtrlName.SIMD
  else if key = "o" then some CtrlName.DAQ
  else none

/-- One element of the SGR dispatch dictionary.  Codes `38` and `48`
invoke `color_256`, whose first statement is `m = next(l)` — but `l` is
the *list* returned by `param_list`, not an iterator, so Python raises
`TypeError: list object is not an iterator` and the whole parse aborts. -/
def sgr_step (t : Terminal) (n : Nat) : Except Err Terminal :=
  match n with
  | 0 => Except.ok { t with attr := [] }
  | 1 => Except.ok { t with attr := set_attr t.attr "weight" (AttrVal.str "bold") }
  | 2 => Except.ok { t with attr := set_attr t.attr "weight" (AttrVal.str "faint") }
  | 3 => Except.ok { t with attr := set_attr t.attr "style" (AttrVal.str "italic") }
  | 4 => Except.ok { t with attr := set_attr t.attr "underline" (AttrVal.str "single") }
  | 5 => Except.ok { t with attr := set_attr t.attr "blink" (AttrVal.str "slow") }
  | 6 => Except.ok { t with attr := set_attr t.attr "blink" (AttrVal.str "rapid") }
  | 7 => Except.ok { t with attr := set_attr t.attr "inverse" AttrVal.flag }
  | 8 => Except.ok { t with attr := set_attr t.attr "hidden" AttrVal.flag }
  | 9 => Except.ok { t with attr := set_attr t.attr "strikeout" AttrVal.flag }
  | 20 => Except.ok { t with attr := set_attr t.attr "style" (AttrVal.str "fraktur") }
  | 21 => Except.ok { t with attr := set_attr t.attr "underline" (AttrVal.str "double") }
  | 22 => Except.ok { t with attr := clear_attr t.attr "weight" }
  | 23 => Except.ok { t with attr := clear_attr t.attr "style" }
  | 24 => Except.ok { t with attr := clear_attr t.attr "underline" }
  | 25 => Except.ok { t with attr := clear_attr t.attr "blink" }
  | 27 => Except.ok { t with attr := clear_attr t.attr "inverse" }
  | 28 => Except.ok { t with attr := clear_attr t.attr "hidden" }
  | 29 => Except.ok { t with attr := clear_attr t.attr "strikeout" }
  | 30 => Except.ok { t with attr := set_attr t.attr "fg_color" (AttrVal.str "black") }
  | 31 => Except.ok { t with attr := set_attr t.attr "fg_color" (AttrVal.str "red") }
  | 32 => Except.ok { t with attr := set_attr t.attr "fg_color" (AttrVal.str "green") }
  | 33 => Except.ok { t with attr := set_attr t.attr "fg_color" (AttrVal.str "yellow") }
  | 34 => Except.ok { t with attr := set_attr t.attr "fg_color" (AttrVal.str "blue") }
  | 35 => Except.ok { t with attr := set_attr t.attr "fg_color" (AttrVal.str "magenta") }
  | 36 => Except.ok { t with attr := set_attr t.attr "fg_color" (AttrVal.str "cyan") }
  | 37 => Except.ok { t with attr := set_attr t.attr "fg_color" (AttrVal.str "white") }
  | 38 => Except.error Err.typeErr
  | 39 => Except.ok { t with attr := clear_attr t.attr "fg_color" }
  | 40 => Except.ok { t with attr := set_attr t.attr "bg_color" (AttrVal.str "black") }
  | 41 => Except.ok { t with attr := set_attr t.attr "bg_color" (AttrVal.str "red") }
  | 42 => Except.ok { t with attr := set_attr t.attr "bg_color" (AttrVal.str "green") }
  | 43 => Except.ok { t with attr := set_attr t.attr "bg_color" (AttrVal.str "yellow") }
  | 44 => Except.ok { t with attr := set_attr t.attr "bg_color" (AttrVal.str "blue") }
  | 45 => Except.ok { t with attr := set_attr t.attr "bg_color" (AttrVal.str "magenta") }
  | 46 => Except.ok { t with attr := set_attr t.attr "bg_color" (AttrVal.str "cyan") }
  | 47 => Except.ok { t with attr := set_attr t.attr "bg_color" (AttrVal.str "white") }
  | 48 => Except.error Err.typeErr
  | 49 => Except.ok { t with attr := clear_attr t.attr "bg_color" }
  | 51 => Except.ok { t with attr := set_attr t.attr "frame" (AttrVal.str "box") }
  | 52 => Except.ok { t with attr := set_attr t.attr "frame" (AttrVal.str "circle") }
  | 53 => Except.ok { t with attr := set_attr t.attr "overline" AttrVal.flag }
  | 54 => Except.ok { t with attr := clear_attr t.attr "frame" }
  | 55 => Except.ok { t with attr := clear_attr t.attr "overline" }
  | _ => Except.ok t

/-- `SGR`: parse the parameter list (default element 0) and process the
elements in order, left to right. -/
def SGR (t : Terminal) (param : String) : Except Err Terminal := do
  let l ← param_list (some param) 0 true 1
  l.foldlM sgr_step t

/-- `CUU` (Cursor Up). -/
def CUU (t : Terminal) (param : Option String) : Except Err Terminal := do
  let l ← param_list param 1 true 1
  pure { t with row := clip (t.row - (l.headD 1 : Nat)) (t.height : Int) }

/-- `CUD` (Cursor Down). -/
def CUD (t : Terminal) (param : Option String) : Except Err Terminal := do
  let l ← param_list param 1 true 1
  pure { t with row := clip (t.row + (l.headD 1 : Nat)) (t.height : Int) }

/-- `CUF` (Cursor Forward). -/
def CUF (t : Terminal) (param : Option String) : Except Err Terminal := do
  let l ← param_list param 1 true 1
  pure { t with col := clip (t.col + (l.headD 1 : Nat)) (t.width : Int) }

/-- `CUB` (Cursor Backward). -/
def CUB (t : Terminal) (param : Option String) : Except Err Terminal := do
  let l ← param_list param 1 true 1
  pure { t with col := clip (t.col - (l.headD 1 : Nat)) (t.width : Int) }

/-- `CHA` (Character Position Absolute). -/
def CHA (t : Terminal) (param : Option String) : Except Err Terminal := do
  let l ← param_list param 1 true 1
  pure { t with col := clip ((l.headD 1 : Nat) - 1 : Int) (t.width : Int) }

/-- `CUP` (Cursor Position). -/
def CUP (t : Terminal) (param : Option String) : Except Err Terminal := do
  let l ← param_list param 1 true 2
  let n := (l.headD 1 : Nat)
  let m := (l.getD 1 1 : Nat)
  pure { t with row := clip ((n : Int) - 1) (t.height : Int)
                col := clip ((m : Int) - 1) (t.width : Int) }

/-- `CHT` (Cursor Forward Tabulation): `HT` repeated `n` times. -/
def CHT (t : Terminal) (param : Option String) : Except Err Terminal := do
  let l ← param_list param 1 true 1
  pure (Nat.rec t (fun _ acc => HT acc) (l.headD 1) : Terminal)

/-- `ED` (Erase in Display): 0 = below, 1 = above, 2 = all. -/
def ED (t : Terminal) (param : Option String) : Except Err Terminal := do
  let l ← param_list param 0 true 1
  let n := l.headD 0
  if n = 0 then
    let line := t.screen.getD t.row.toNat []
    let line1 := pyFillSlice line t.col (line.length : Int) none
    let s := t.screen.set t.row.toNat line1
    let s1 := pyFillSlice s (t.row + 1) (s.length : Int) (blankRow t.width)
    pure { t with screen := s1 }
  else if n = 1 then
    let s := pyFillSlice t.screen 0 t.row (blankRow t.width)
    let line1 := pyFillSlice (s.getD t.row.toNat []) 0 (t.col + 1) none
    pure { t with screen := s.set t.row.toNat line1 }
  else if n = 2 then
    let s1 := pyFillSlice t.screen 0 (t.screen.length : Int) (blankRow t.width)
    pure { t with screen := s1 }
  else pure t

/-- `EL` (Erase in Line): 0 = to right, 1 = to left, 2 = all. -/
def EL (t : Terminal) (param : Option String) : Except Err Terminal := do
  let l ← param_list param 0 true 1
  let n := l.headD 0
  let line := t.screen.getD t.row.toNat []
  if n = 0 then
    let line1 := pyFillSlice line t.col (line.length : Int) none
    pure { t with screen := t.screen.set t.row.toNat line1 }
  else if n = 1 then
    let line1 := pyFillSlice line 0 (t.col + 1) none
    pure { t with screen := t.screen.set t.row.toNat line1 }
  else if n = 2 then
    let line1 := pyFillSlice line 0 (line.length : Int) none
    pure { t with screen := t.screen.set t.row.toNat line1 }
  else pure t

/-- `IL` (Insert Lines): `scroll(n, bottom=self.row)` — the region is
`[0, row)` *above* the cursor, so the default `top = 0` records the top
rows to history — then cursor up by `n` via `CUU(param=str(n))`. -/
def IL (t : Terminal) (param : Option String) : Except Err Terminal := do
  let l ← param_list param 1 true 1
  let n := l.headD 1
  let t ← scroll t (n : Int) none (some t.row)
  CUU t (some (Nat.repr n))

/-- `DL` (Delete Lines): `scroll(n, top=self.row)`. -/
def DL (t : Terminal) (param : Option String) : Except Err Terminal := do
  let l ← param_list param 1 true 1
  scroll t ((l.headD 1 : Nat) : Int) (some t.row) none

/-- `DCH` (Delete Characters): shift the rest of the row left by `n`,
fill the right edge with `None`. -/
def DCH (t : Terminal) (param : Option String) : Except Err Terminal := do
  let l ← param_list param 1 true 1
  let n := ((l.headD 1 : Nat) : Int)
  let line := t.screen.getD t.row.toNat []
  match pySetSlice line t.col (-n) (pySlice line (t.col + n) (line.length : Int)) with
  | Except.ok line1 =>
      let line2 := pyFillSlice line1 (-n) (line1.length : Int) none
      pure { t with screen := t.screen.set t.row.toNat line2 }
  | Except.error e => Except.error e

/-- `SU` (Scroll Up). -/
def SU (t : Terminal) (param : Option String) : Except Err Terminal := do
  let l ← param_list param 1 true 1
  scroll t ((l.headD 1 : Nat) : Int) none none

/-- `SD` (Scroll Down). -/
def SD (t : Terminal) (param : Option String) : Except Err Terminal := do
  let l ← param_list param 1 true 1
  scroll t (-((l.headD 1 : Nat) : Int)) none none

/-- `ECH` (Erase Characters): blank `n` cells from the cursor rightward. -/
def ECH (t : Terminal) (param : Option String) : Except Err Terminal := do
  let l ← param_list param 1 true 1
  let line := t.screen.getD t.row.toNat []
  let line1 := pyFillSlice line t.col (t.col + (l.headD 1 : Nat)) none
  pure { t with screen := t.screen.set t.row.toNat line1 }

/-- `CBT` (Cursor Backward Tabulation): the inner backward-tab loop,
`n` times. -/
def CBT (t : Terminal) (param : Option String) : Except Err Terminal := do
  let l ← param_list param 1 true 1
  pure (Nat.rec t
    (fun _ acc => { acc with col := cbtLoop acc.tabstops acc.col.toNat acc.col })
    (l.headD 1) : Terminal)

/-- `REP` (Repeat): re-output the previous ground character `n` times if
it was printable. -/
def REP (t : Terminal) (param : Option String) : Except Err Terminal := do
  let l ← param_list param 1 true 1
  if 0x20 ≤ t.previous.toNat then
    (List.range (l.headD 1)).foldlM (fun acc _ => output acc acc.previous) t
  else pure t

/-- `VPA` (Line Position Absolute). -/
def VPA (t : Terminal) (param : Option String) : Except Err Terminal := do
  let l ← param_list param 1 true 1
  pure { t with row := clip ((l.headD 1 : Nat) - 1 : Int) (t.height : Int) }

/-- `TBC` (Tab Clear): 0 = clear at cursor, 3 = clear all. -/
def TBC (t : Terminal) (param : Option String) : Except Err Terminal := do
  let l ← param_list param 0 true 1
  let n := l.headD 0
  if n = 0 then
    pure { t with tabstops :=
      if 0 ≤ t.col then t.tabstops.set t.col.toNat false else t.tabstops }
  else if n = 3 then
    pure { t with tabstops := List.replicate t.width false }
  else pure t

/-- `CNL` (Cursor Next Line): `CUD` then column 0. -/
def CNL (t : Terminal) (param : Option String) : Except Err Terminal := do
  let t ← CUD t param
  pure { t with col := 0 }

/-- `CPL` (Cursor Previous Line): `CUU` then column 0. -/
def CPL (t : Terminal) (param : Option String) : Except Err Terminal := do
  let t ← CUU t param
  pure { t with col := 0 }

/-- Run the control-sequence handler named `h` with the parameter string.
Handlers that `return NotImplemented` are diagnostic-only no-ops. -/
def run_control (t : Terminal) (h : CtrlName) (param : String) :
    Except Err Terminal :=
  match h with
  | CtrlName.CUU => CUU t (some param)
  | CtrlName.CUD => CUD t (some param)
  | CtrlName.CUF => CUF t (some param)
  | CtrlName.CUB => CUB t (some param)
  | CtrlName.CNL => CNL t (some param)
  | CtrlName.CPL => CPL t (some param)
  | CtrlName.CHA => CHA t (some param)
  | CtrlName.CUP => CUP t (some param)
  | CtrlName.CHT => CHT t (some param)
  | CtrlName.ED => ED t (some param)
  | CtrlName.EL => EL t (some param)
  | CtrlName.IL => IL t (some param)
  | CtrlName.DL => DL t (some param)
  | CtrlName.DCH => DCH t (some param)
  | CtrlName.SU => SU t (some param)
  | CtrlName.SD => SD t (some param)
  | CtrlName.ECH => ECH t (some param)
  | CtrlName.CBT => CBT t (some param)
  | CtrlName.HPA => CHA t (some param)
  | CtrlName.HPR => CUF t (some param)
  | CtrlName.REP => REP t (some param)
  | CtrlName.VPA => VPA t (some param)
  | CtrlName.VPR => CUD t (some param)
  | CtrlName.HVP => CUP t (some param)
  | CtrlName.TBC => TBC t (some param)
  | CtrlName.HPB => CUB t (some param)
  | CtrlName.VPB => CUU t (some param)
  | CtrlName.SGR => SGR t param
  | _ => Except.ok t

/-- Parameter bytes of the CSI grammar (`0x30–0x3f`). -/
def isParamByte (c : Char) : Bool := 0x30 ≤ c.toNat ∧ c.toNat ≤ 0x3f

/-- Intermediate bytes (`0x20–0x2f`). -/
def isInterByte (c : Char) : Bool := 0x20 ≤ c.toNat ∧ c.toNat ≤ 0x2f

/-- Final bytes as accepted by the dispatch regex (`0x40–0x7f`). -/
def isFinalByte (c : Char) : Bool := 0x40 ≤ c.toNat ∧ c.toNat ≤ 0x7f

/-- The regex `^([\x30-\x3f]*)([\x20-\x2f]*[\x40-\x7f])$` of
`dispatch_control_sequence`.  The three byte classes are pairwise
disjoint, so the greedy first group is exactly the maximal parameter-byte
prefix and a match exists iff the remainder is intermediates followed by
one final byte.  Returns `(param, command)` on a match. -/
def csi_match (s : List Char) : Option (String × String) :=
  let ps := s.takeWhile isParamByte
  let rest := s.dropWhile isParamByte
  match rest.getLast? with
  | some last =>
      if isFinalByte last ∧ rest.dropLast.all isInterByte then
        some (String.mk ps, String.mk rest)
      else none
  | none => none

/-- `collect(c)`: record an intermediate character. -/
def collect (t : Terminal) (c : Char) : Terminal :=
  { t with collected := t.collected.push c }

/-- `dispatch_escape(c)`: the table lookup is
`self.escape_sequences.get(c, None)` — only the final byte `c` is used as
the key, although `command = self.collected + c` is what gets passed to
the handler.  An unknown key is ignored. -/
def dispatch_escape (t : Terminal) (c : Char) : Except Err Terminal :=
  match escape_sequences (String.singleton c) with
  | some h => run_escape t h
  | none => Except.ok t

/-- `dispatch_control_sequence(c)`: append `c` to the collected buffer,
match the grammar, look up the command key (intermediates + final byte);
a regex mismatch or a handler raising `InvalidParameterListError` is the
diagnostic-only `invalid_control_sequence` path, unknown keys are
`ignore_control_sequence`.  Other exceptions propagate. -/
def dispatch_control_sequence (t : Terminal) (c : Char) : Except Err Terminal :=
  let t := collect t c
  match csi_match t.collected.data with
  | none => Except.ok t
  | some pc =>
      match control_sequences pc.2 with
      | none => Except.ok t
      | some h =>
          match run_control t h pc.1 with
          | Except.ok t' => Except.ok t'
          | Except.error Err.invalidParamList => Except.ok t
          | Except.error e => Except.error e

/-- `parse_ground(c)`: remember the previous/current character, then
execute a C0 command or print. -/
def parse_ground (t : Terminal) (c : Char) : Except Err Terminal :=
  let t := { t with previous := t.current, current := c }
  if c.toNat < 0x20 then execute t c else output t c

/-- `parse_escape(c)`. -/
def parse_escape (t : Terminal) (c : Char) : Except Err Terminal :=
  if c.toNat < 0x20 then execute t c
  else if c.toNat < 0x30 then Except.ok (collect t c)
  else if c.toNat < 0x7f then
    dispatch_escape { t with nextState := some PState.ground } c
  else Except.ok t

/-- `parse_control_sequence(c)`. -/
def parse_control_sequence (t : Terminal) (c : Char) : Except Err Terminal :=
  if c.toNat < 0x20 then execute t c
  else if c.toNat < 0x40 then Except.ok (collect t c)
  else if c.toNat < 0x7f then
    dispatch_control_sequence { t with nextState := some PState.ground } c
  else Except.ok t

/-- `finish_control_string`: all `finish_*` hooks are `None`, so this is
`ignore_control_string` (a diagnostic) followed by a return to ground. -/
def finish_control_string (t : Terminal) : Terminal :=
  { t with nextState := some PState.ground }

/-- `parse_control_string(c)` for the `osc`/`sos`/`pm`/`apc` states:
`CAN`/`SUB` abort; `BEL` finishes an `osc`; a collected trailing `ESC`
finishes on `\` and aborts on anything else; otherwise collect. -/
def parse_control_string (t : Terminal) (c : Char) : Terminal :=
  if c = '\x18' ∨ c = '\x1a' then
    { t with nextState := some PState.ground }
  else if c = '\x07' ∧ t.state = PState.osc then
    finish_control_string t
  else if t.collected ≠ "" ∧ t.collected.back = '\x1b' then
    let t := { t with collected := t.collected.dropRight 1 }
    if c = '\x5c' then finish_control_string t
    else { t with nextState := some PState.ground }
  else collect t c

/-- The `enter_*` hooks: `clear_on_enter` for `escape`,
`control_sequence`, `osc`, `sos`, `apc`, `pm`.  The source defines
`enter_dsc` (a typo) instead of `enter_dcs`, so entering the `dcs` state
does *not* clear the collected buffer; `ground` has no hook. -/
def enter_hook (t : Terminal) : Terminal :=
  match t.state with
  | PState.escape => { t with collected := "" }
  | PState.control_sequence => { t with collected := "" }
  | PState.osc => { t with collected := "" }
  | PState.sos => { t with collected := "" }
  | PState.apc => { t with collected := "" }
  | PState.pm => { t with collected := "" }
  | PState.dcs => t
  | PState.ground => t

/-- `transition()`: rotate `(next_state, state, prev_state)` and run the
enter hook when the state changed.  (No `leave_*` hook exists in the
source, so that branch is a no-op.) -/
def transition (t : Terminal) : Terminal :=
  let t' := { t with nextState := none
                     state := t.nextState.getD t.state
                     prevState := some t.state }
  if t'.prevState ≠ some t'.state then enter_hook t' else t'

/-- `parse_single(c)`: set `next_state` to the current state, run the
state's `parse_*` method, then `transition()`.  The `DCS` escape sets the
state to `'dcs'`, but the source only defines `parse_dsc` (a typo), so
`getattr` fails and a `RuntimeError` is raised. -/
def parse_single (t : Terminal) (c : Char) : Except Err Terminal := do
  let t := { t with nextState := some t.state }
  let t ← match t.state with
    | PState.ground => parse_ground t c
    | PState.escape => parse_escape t c
    | PState.control_sequence => parse_control_sequence t c
    | PState.osc => Except.ok (parse_control_string t c)
    | PState.sos => Except.ok (parse_control_string t c)
    | PState.pm => Except.ok (parse_control_string t c)
    | PState.apc => Except.ok (parse_control_string t c)
    | PState.dcs => Except.error Err.internalErr
  pure (transition t)

/-- `parse(s)`: parse an entire string, one character at a time. -/
def parse (t : Terminal) (s : List Char) : Except Err Terminal :=
  s.foldlM parse_single t

/-- `drop_end(is_None, line)`: remove trailing absent cells. -/
def drop_end_none (l : Row) : Row :=
  (l.reverse.dropWhile (fun x => x.isNone)).reverse

/-- `fixup_line(line)`: trim trailing absent cells, then turn the
remaining absent cells into attribute-free blanks. -/
def fixup_line (line : Row) : List Character :=
  (drop_end_none line).map (fun x => x.getD ⟨' ', []⟩)

/-- `drop_end(None, lines)`: remove trailing falsy (empty) lines. -/
def drop_end_empty (ls : List (List Character)) : List (List Character) :=
  (ls.reverse.dropWhile (fun l => l.isEmpty)).reverse

/-- `format_text(line)`: concatenate the characters and append `'\n'`. -/
def format_text (line : List Character) : String :=
  String.mk (line.map (fun c => c.char)) ++ "\n"

/-- `to_string(history, screen, remove_blank_end)` with the `text`
formatter.  When no lines were selected the function hits the bare
`return` statement and yields Python `None`, modelled as `none`. -/
def to_string (t : Terminal) (history screen remove_blank_end : Bool) :
    Option String :=
  let lines := (if history then t.history.map fixup_line else []) ++
               (if screen then t.screen.map fixup_line else [])
  if lines.isEmpty then none
  else
    let lines := if remove_blank_end then drop_end_empty lines else lines
    some (String.join (lines.map format_text))

deriving instance DecidableEq for Except

/-! Helper lemmas. -/

theorem digitChar_spec : ∀ k, k < 10 →
    ('0' ≤ Nat.digitChar k ∧ Nat.digitChar k ≤ '9') ∧
      (Nat.digitChar k).toNat - 0x30 = k ∧ Nat.digitChar k ≠ ';' := by
  decide

theorem toDigitsCore_spec :
    ∀ (fuel : Nat), ∀ (n : Nat) (ds : List Char), 0 < fuel → n < 10 ^ fuel →
    ∃ l, Nat.toDigitsCore 10 fuel n ds = l ++ ds ∧ l ≠ [] ∧
      (∀ c ∈ l, ('0' ≤ c ∧ c ≤ '9') ∧ c ≠ ';') ∧
      ∀ a, l.foldl pyIntStep a = a * 10 ^ l.length + n := by
  intro fuel
  induction fuel with
  | zero => intro n ds h0 _; omega
  | succ m ih =>
      intro n ds _ hn
      by_cases hdiv : n / 10 = 0
      · refine ⟨[Nat.digitChar (n % 10)], ?_, by simp, ?_, ?_⟩
        · simp [Nat.toDigitsCore, hdiv]
        · intro c hc
          simp at hc
          subst hc
          exact ⟨(digitChar_spec (n % 10) (by omega)).1,
                 (digitChar_spec (n % 10) (by omega)).2.2⟩
        · intro a
          have := (digitChar_spec (n % 10) (by omega)).2.1
          simp [pyIntStep, this]
          omega
      · have hm : 0 < m := by
          rcases Nat.eq_zero_or_pos m with h | h
          · subst h; simp at hn; omega
          · exact h
        have hlt : n / 10 < 10 ^ m := by
          have h2 : n < 10 * 10 ^ m := by
            have h3 : (10:Nat) ^ (m+1) = 10 * 10 ^ m := by ring
            omega
          exact Nat.div_lt_of_lt_mul h2
        obtain ⟨l, heq, hne, hdig, hfold⟩ :=
          ih (n / 10) (Nat.digitChar (n % 10) :: ds) hm hlt
        refine ⟨l ++ [Nat.digitChar (n % 10)], ?_, by simp, ?_, ?_⟩
        · simp [Nat.toDigitsCore, hdiv, heq]
        · intro c hc
          simp at hc
          rcases hc with hc | hc
          · exact hdig c hc
          · subst hc
            exact ⟨(digitChar_spec (n % 10) (by omega)).1,
                   (digitChar_spec (n % 10) (by omega)).2.2⟩
        · intro a
          have hd := (digitChar_spec (n % 10) (by omega)).2.1
          rw [List.foldl_append, hfold a]
          simp [pyIntStep, hd, List.length_append]
          rw [Nat.pow_succ]
          have hmod : 10 * (n / 10) + n % 10 = n := Nat.div_add_mod n 10
          ring_nf
          omega

theorem repr_digits (n : Nat) :
    ∃ l, (Nat.repr n).data = l ∧ l ≠ [] ∧
      (∀ c ∈ l, ('0' ≤ c ∧ c ≤ '9') ∧ c ≠ ';') ∧
      l.foldl pyIntStep 0 = n := by
  have hn : n < 10 ^ (n + 1) := by
    have h1 : n < 10 ^ n := Nat.lt_pow_self (by norm_num) n
    have h2 : 10 ^ n ≤ 10 ^ (n + 1) := Nat.pow_le_pow_right (by norm_num) (by omega)
    omega
  obtain ⟨l, heq, hne, hdig, hfold⟩ := toDigitsCore_spec (n + 1) n [] (by omega) hn
  refine ⟨l, ?_, hne, hdig, ?_⟩
  · show (Nat.toDigits 10 n).asString.data = l
    simp [Nat.toDigits, heq, List.asString]
  · have h0 := hfold 0
    simpa using h0

theorem splitSemis_no_semi (l : List Char) (h : ∀ c ∈ l, c ≠ ';') :
    splitSemis l = [l] := by
  induction l with
  | nil => rfl
  | cons c rest ih =>
      have hc : c ≠ ';' := h c (by simp)
      have hrest := ih (fun x hx => h x (by simp [hx]))
      simp [splitSemis, hc, hrest]

/-- `param_list(str(n), 1)` parses back to `[n]` for positive `n` —
the round trip used by `IL`'s call `self.CUU(param=str(n))`. -/
theorem param_list_repr (n : Nat) (hn : 0 < n) :
    param_list (some (Nat.repr n)) 1 true 1 = Except.ok [n] := by
  obtain ⟨l, heq, hne, hdig, hfold⟩ := repr_digits n
  have hsplit : splitSemis (Nat.repr n).data = [l] := by
    rw [heq]; exact splitSemis_no_semi l (fun c hc => (hdig c hc).2)
  have hpy : py_int l = some n := by
    unfold py_int
    rw [if_pos]
    · exact congrArg some hfold
    refine ⟨hne, ?_⟩
    rw [List.all_eq_true]
    intro c hc
    have hd := (hdig c hc).1
    simp [hd.1, hd.2]
  cases l with
  | nil => exact absurd rfl hne
  | cons c cs =>
      simp only [param_list, hsplit, List.mapM_cons, List.mapM_nil, hpy]
      simp [hn.ne']

/-- Parsing distributes over concatenation of the input: feeding `s1 ++ s2`
in one call equals feeding `s1` and then `s2`. -/
theorem parse_append (t : Terminal) (s1 s2 : List Char) :
    parse t (s1 ++ s2) = (parse t s1).bind (fun u => parse u s2) := by
  induction s1 generalizing t with
  | nil => rfl
  | cons c s1 ih =>
      simp only [List.cons_append, parse, List.foldlM_cons]
      cases parse_single t c with
      | ok u => simpa [parse] using ih u
      | error e => rfl

/-- A one-character `parse` call is exactly `parse_single`. -/
theorem parse_one (t : Terminal) (c : Char) :
    parse t [c] = parse_single t c := by
  cases h : parse_single t c <;> simp [parse, h]

/-! Claim theorems. -/

/-- Claim C1.  The claim states that parsing `ESC [ 3 8 ; 5 ; 1 9 6 m`
followed by `X` writes a cell at (0,0) whose `fg_color` is `'#ff0000'`.
In the source, `SGR` iterates over the *list* `l = param_list(param, 0)`
and `color_256` immediately calls `next(l)`, which raises
`TypeError: list object is not an iterator` for any SGR containing code
38 or 48.  The exception is not caught (only `InvalidParameterListError`
is), so the whole parse aborts and no cell is ever written: evaluating
the embedded code on the claimed input yields the `TypeError`, both for
the bare SGR sequence and with the trailing `X`. -/
theorem C1_sgr256_raises_typeError :
    parse (mkTerm 2 2) "\x1b[38;5;196m".data = Except.error Err.typeErr ∧
    parse (mkTerm 2 2) ("\x1b[38;5;196m".data ++ ['X']) =
      Except.error Err.typeErr := by
  constructor
  · decide
  · decide

/-- Claim C4.  The claim states that `dispatch_escape` looks up
`collected + byte` so that `ESC SP M` and `ESC M` invoke different
handlers.  In the source the lookup is `self.escape_sequences.get(c)` —
only the final byte — so `ESC SP M` invokes `RI` (registered under
`'M'`), which moves the cursor from row 1 to row 0, even though the
table registers `' M'` to the no-op handler `set_ansi_level_2` (making
every registration with intermediate bytes unreachable). -/
theorem C4_escape_dispatch_uses_final_byte_only :
    (parse { mkTerm 2 2 with row := 1 } "\x1b M".data).toOption.map
        Terminal.row = some 0 ∧
    escape_sequences " M" = some EscName.set_ansi_level_2 ∧
    run_escape { mkTerm 2 2 with row := 1 } EscName.set_ansi_level_2 =
      Except.ok { mkTerm 2 2 with row := 1 } ∧
    escape_sequences "M" = some EscName.RI := by
  refine ⟨by decide, by decide, by decide, by decide⟩

/-- Claim C7.  Feeding `s1 ++ s2` to `parse` in one call leaves the
terminal in exactly the same state (or raises the same exception) as
feeding `s1` and then `s2` in two calls, and a `parse` call is exactly
the left fold of `parse_single` over the characters, so batch,
two-part, and character-by-character feeding agree. -/
theorem C7_parse_streaming_eq_batch (t : Terminal) (s1 s2 : List Char) :
    parse t (s1 ++ s2) = (parse t s1).bind (fun u => parse u s2) ∧
    parse t (s1 ++ s2) = (s1.foldlM parse_single t).bind
      (fun u => s2.foldlM parse_single u) :=
  ⟨parse_append t s1 s2, parse_append t s1 s2⟩

/-- Claim C2.  From the ground state, parsing the CSI sequence
`ESC [ - 1 m` (a negative parameter token) discards the sequence: the
regex of `dispatch_control_sequence` rejects the collected buffer
`"-1m"` (`'-'` is an intermediate byte, so `'1'` cannot follow it), only
the diagnostic `invalid_control_sequence` fires, the parser returns to
the ground state, and the screen, cursor, attribute map, history and tab
stops are exactly as before (only the parse bookkeeping fields
`previous`/`current`/`prevState`/`collected` change).  A printable
character fed immediately afterwards is output normally at the unchanged
cursor position. -/
theorem C2_invalid_csi_is_local_noop (t : Terminal)
    (h : t.state = PState.ground) :
    parse t "\x1b[-1m".data =
      Except.ok { t with previous := t.current, current := '\x1b',
                         prevState := some PState.control_sequence,
                         nextState := none, state := PState.ground,
                         collected := "-1m" } ∧
    (∀ c : Char, 0x20 ≤ c.toNat → t.col < (t.width : Int) →
      parse t ("\x1b[-1m".data ++ [c]) =
        Except.ok { t with previous := '\x1b', current := c,
                           prevState := some PState.ground,
                           nextState := none, state := PState.ground,
                           collected := "-1m",
                           screen := setCell t.screen t.row t.col
                                       (some ⟨c, t.attr⟩),
                           col := t.col + 1 }) := by
  obtain ⟨st, ps, ns, hist, w, hgt, scr, r, co, pv, cu, tb, att, coll⟩ := t
  simp only at h
  subst h
  refine ⟨rfl, ?_⟩
  intro c hc hcol
  rw [parse_append]
  have h1 : parse (Terminal.mk PState.ground ps ns hist w hgt scr r co pv cu
      tb att coll) "\x1b[-1m".data =
      Except.ok (Terminal.mk PState.ground (some PState.control_sequence) none
        hist w hgt scr r co cu '\x1b' tb att "-1m") := rfl
  rw [h1]
  show parse (Terminal.mk PState.ground (some PState.control_sequence) none
        hist w hgt scr r co cu '\x1b' tb att "-1m") [c] = _
  rw [parse_one]
  have hlt : ¬ (c.toNat < 0x20) := by omega
  have hge : ¬ ((co : Int) ≥ (w : Int)) := not_le.mpr hcol
  simp only [parse_single, parse_ground, hlt, if_false, output, hge,
    transition, enter_hook]
  rfl

/-- Witness for C2 on a concrete 2×2 terminal and the character `'A'`. -/
theorem C2_invalid_csi_is_local_noop_witness :
    (mkTerm 2 2).state = PState.ground ∧
    0x20 ≤ 'A'.toNat ∧ (mkTerm 2 2).col < ((mkTerm 2 2).width : Int) ∧
    parse (mkTerm 2 2) ("\x1b[-1m".data ++ ['A']) =
      Except.ok { mkTerm 2 2 with
                    previous := '\x1b', current := 'A',
                    prevState := some PState.ground, nextState := none,
                    state := PState.ground, collected := "-1m",
                    screen := setCell (mkTerm 2 2).screen 0 0
                                (some ⟨'A', []⟩),
                    col := 1 } :=
  ⟨rfl, by decide, by decide,
   (C2_invalid_csi_is_local_noop (mkTerm 2 2) rfl).2 'A' (by decide)
     (by decide)⟩
theorem resolveIdx_nonneg (len : Nat) (i : Int) (h0 : 0 ≤ i) :
    resolveIdx len i = min i.toNat len := by
  simp only [resolveIdx]
  rw [if_neg (by omega), if_neg (by omega)]

theorem pySlice_eval (l : List α) (a b : Int) (h0 : 0 ≤ a) (h1 : 0 ≤ b) :
    pySlice l a b = (l.take (min b.toNat l.length)).drop (min a.toNat l.length) := by
  simp only [pySlice, resolveIdx_nonneg _ _ h0, resolveIdx_nonneg _ _ h1]

theorem scroll_spec_le (t : Terminal) (n : Int)
    (hlen : t.screen.length = t.height)
    (h1 : 0 < n) (h2 : n ≤ (t.height : Int)) :
    scroll t n none none = Except.ok { t with
      history := t.history ++ t.screen.take n.toNat
      screen := t.screen.drop n.toNat ++
                  List.replicate n.toNat (blankRow t.width) } := by
  have hnn : (0:Int) ≤ n := le_of_lt h1
  have hht : n.toNat ≤ t.height := by omega
  have hrepl : pySlice t.screen (0 + n) (t.height : Int) = t.screen.drop n.toNat := by
    rw [pySlice_eval _ _ _ (by omega) (by omega)]
    have e1 : ((t.height:Int).toNat) = t.height := by omega
    have e2 : ((0 + n : Int).toNat) = n.toNat := by omega
    rw [e1, e2, hlen, min_self, ← hlen, List.take_length]
    congr 1
    omega
  have hset : pySetSlice t.screen 0 ((t.height:Int) - n)
      (pySlice t.screen (0 + n) (t.height : Int)) =
      Except.ok (t.screen.drop n.toNat ++ t.screen.drop (t.height - n.toNat)) := by
    rw [hrepl]
    simp only [pySetSlice, resolveIdx_nonneg _ _ (by omega : (0:Int) ≤ 0),
      resolveIdx_nonneg _ _ (by omega : (0:Int) ≤ (t.height:Int) - n)]
    have e3 : min (0:Int).toNat t.screen.length = 0 := by simp
    have e4 : min ((t.height:Int) - n).toNat t.screen.length = t.height - n.toNat := by
      omega
    rw [e3, e4]
    rw [if_pos (by rw [List.length_drop]; omega)]
    simp
  have hfill : pyFillSlice
      (t.screen.drop n.toNat ++ t.screen.drop (t.height - n.toNat))
      ((t.height:Int) - n) (t.height:Int) (blankRow t.width) =
      t.screen.drop n.toNat ++ List.replicate n.toNat (blankRow t.width) := by
    have hl1 : (t.screen.drop n.toNat).length = t.height - n.toNat := by
      rw [List.length_drop, hlen]
    have hl2 : (t.screen.drop (t.height - n.toNat)).length = n.toNat := by
      rw [List.length_drop, hlen]; omega
    have hls : (t.screen.drop n.toNat ++
        t.screen.drop (t.height - n.toNat)).length = t.height := by
      rw [List.length_append, hl1, hl2]; omega
    simp only [pyFillSlice, resolveIdx_nonneg _ _ (by omega : (0:Int) ≤ (t.height:Int) - n),
      resolveIdx_nonneg _ _ (by omega : (0:Int) ≤ (t.height:Int))]
    rw [hls]
    have e5 : min ((t.height:Int) - n).toNat t.height = t.height - n.toNat := by omega
    have e6 : min ((t.height:Int)).toNat t.height = t.height := by omega
    rw [e5, e6]
    have e7 : max (t.height - n.toNat) t.height = t.height := by omega
    rw [e7]
    have e9 : (t.screen.drop n.toNat ++
        t.screen.drop (t.height - n.toNat)).drop t.height = [] :=
      List.drop_eq_nil_of_le (le_of_eq hls)
    rw [List.take_left' hl1, e9]
    have e8 : t.height - (t.height - n.toNat) = n.toNat := by omega
    rw [e8, List.append_nil]
  have hhist : pySlice t.screen 0 n = t.screen.take n.toNat := by
    rw [pySlice_eval _ _ _ le_rfl hnn]
    have e10 : min n.toNat t.screen.length = n.toNat := by omega
    have e11 : min (0:Int).toNat t.screen.length = 0 := by simp
    rw [e10, e11, List.drop_zero]
  have hgt0 : ¬ (n > (t.height:Int) - 0) := by omega
  simp only [scroll, Option.getD, hgt0, if_false, if_pos rfl, hset, hfill, hhist]
  rw [if_pos h1]
  simp

/-- `scroll(n)` with default region and `n > height`: the whole screen
goes to history followed by `n - height` blank rows, and the screen is
cleared. -/
theorem scroll_spec_gt (t : Terminal) (n : Int)
    (hlen : t.screen.length = t.height)
    (h2 : (t.height : Int) < n) :
    scroll t n none none = Except.ok { t with
      history := t.history ++ t.screen ++
                   List.replicate (n - (t.height:Int)).toNat (blankRow t.width)
      screen := List.replicate t.height (blankRow t.width) } := by
  have hnn : (0:Int) ≤ n := by omega
  have hhist : pySlice t.screen 0 n = t.screen := by
    rw [pySlice_eval _ _ _ le_rfl hnn]
    have e10 : min n.toNat t.screen.length = t.screen.length := by omega
    have e11 : min (0:Int).toNat t.screen.length = 0 := by simp
    rw [e10, e11, List.drop_zero, List.take_length]
  have hrepl : pySlice t.screen (0 + (t.height:Int)) (t.height:Int) = [] := by
    rw [pySlice_eval _ _ _ (by omega) (by omega)]
    apply List.drop_eq_nil_of_le
    have := List.length_take ((t.height:Int).toNat ⊓ t.screen.length) t.screen
    omega
  have hset : pySetSlice t.screen 0 ((t.height:Int) - (t.height:Int))
      (pySlice t.screen (0 + (t.height:Int)) (t.height:Int)) =
      Except.ok t.screen := by
    rw [hrepl]
    simp only [pySetSlice, List.length_nil]
    have e1 : resolveIdx t.screen.length 0 = 0 := by
      rw [resolveIdx_nonneg _ _ le_rfl]; simp
    have e2 : resolveIdx t.screen.length ((t.height:Int) - (t.height:Int)) = 0 := by
      rw [resolveIdx_nonneg _ _ (by omega)]
      simp
    rw [e1, e2]
    simp
  have hfill : pyFillSlice t.screen ((t.height:Int) - (t.height:Int))
      (t.height:Int) (blankRow t.width) =
      List.replicate t.height (blankRow t.width) := by
    simp only [pyFillSlice]
    have e1 : resolveIdx t.screen.length ((t.height:Int) - (t.height:Int)) = 0 := by
      rw [resolveIdx_nonneg _ _ (by omega)]; simp
    have e2 : resolveIdx t.screen.length (t.height:Int) = t.height := by
      rw [resolveIdx_nonneg _ _ (by omega)]; omega
    rw [e1, e2]
    rw [List.drop_eq_nil_of_le (by omega), List.append_nil, List.take_zero,
      List.nil_append]
    congr 1
    omega
  have hgt0 : n > (t.height:Int) - 0 := by omega
  simp only [scroll, Option.getD, if_pos hgt0, if_pos rfl, hset, hfill, hhist]
  rw [if_pos (by omega : n > 0)]
  simp [List.append_assoc]

/-- Claim C3 (amended).  For `0 < n`, `scroll(n)` with `top = 0` on an
`h`-row screen appends exactly `n` rows to History: for `n ≤ h` the
original top `n` rows in unchanged top-to-bottom order (and the new
bottom `n` screen rows are blank); for `n > h` all `h` real rows are
appended first and the `n - h` excess blank rows are placed *after*
them (the claim said before), the screen becoming entirely blank. -/
theorem C3_scroll_appends_history (t : Terminal) (n : Int)
    (hlen : t.screen.length = t.height) (h1 : 0 < n) :
    (n ≤ (t.height : Int) → scroll t n none none = Except.ok { t with
        history := t.history ++ t.screen.take n.toNat
        screen := t.screen.drop n.toNat ++
                    List.replicate n.toNat (blankRow t.width) }) ∧
    ((t.height : Int) < n → scroll t n none none = Except.ok { t with
        history := t.history ++ t.screen ++
                     List.replicate (n - (t.height:Int)).toNat
                       (blankRow t.width)
        screen := List.replicate t.height (blankRow t.width) }) :=
  ⟨fun h2 => scroll_spec_le t n hlen h1 h2,
   fun h2 => scroll_spec_gt t n hlen h2⟩

/-- Witness for C3 on a 2×1 screen with rows `A`, `B`, scrolling by 1:
row `A` goes to history, the screen becomes `B` over a blank row. -/
theorem C3_scroll_appends_history_witness :
    ({ mkTerm 2 1 with screen := [[some ⟨'A', []⟩], [some ⟨'B', []⟩]]
       : Terminal }).screen.length =
      ({ mkTerm 2 1 with screen := [[some ⟨'A', []⟩], [some ⟨'B', []⟩]]
         : Terminal }).height ∧
    (0 : Int) < 1 ∧
    scroll { mkTerm 2 1 with
        screen := [[some ⟨'A', []⟩], [some ⟨'B', []⟩]] } 1 none none =
      Except.ok { mkTerm 2 1 with
        history := [[some ⟨'A', []⟩]]
        screen := [[some ⟨'B', []⟩], [none]] } := by
  refine ⟨by decide, by decide, ?_⟩
  have h := (C3_scroll_appends_history
    { mkTerm 2 1 with screen := [[some ⟨'A', []⟩], [some ⟨'B', []⟩]] } 1
    (by decide) (by decide)).1 (by decide)
  rw [h]
  decide

/-- Counterexample to C3 as stated: on a 2-row screen, `scroll(3)`
appends `[row A, row B, blank]` to history — the excess blank row comes
*after* the real rows, not before them as the claim asserts. -/
theorem C3_counterexample :
    (scroll { mkTerm 2 1 with
        screen := [[some ⟨'A', []⟩], [some ⟨'B', []⟩]] } 3 none
        none).toOption.map Terminal.history =
      some [[some ⟨'A', []⟩], [some ⟨'B', []⟩], [none]] ∧
    [[some ⟨'A', []⟩], [some ⟨'B', []⟩], [(none : Option Character)]] ≠
      [[none], [some ⟨'A', []⟩], [some ⟨'B', []⟩]] := by
  exact ⟨by decide, by decide⟩

/-- The `HT` column loop on the default tab stops of an 80-column
terminal computes `min (8·⌈(c+1)/8⌉) 79` (for integers `c ≥ 0`,
`⌈(c+1)/8⌉ = (c+8)/8` with floor division). -/
theorem ht_loop_formula : ∀ c : Nat, c < 80 →
    htLoop ((mkTerm 24 80).tabstops) 80 (79 - c) (c : Int) =
      min (8 * (((c : Int) + 8) / 8)) 79 := by
  decide

/-- Claim C6.  With the default tab stops (true exactly at the columns
divisible by 8) of an 80-column terminal, `HT` from any column
`0 ≤ c < 80` moves the cursor to `8·⌈(c+1)/8⌉` clamped to `width-1 = 79`
(written with floor division as `min (8·((c+8)/8)) 79`), without
changing the row, the screen contents, or the history. -/
theorem C6_ht_default_tabstops (t : Terminal) (hw : t.width = 80)
    (htabs : t.tabstops = (mkTerm 24 80).tabstops)
    (h0 : 0 ≤ t.col) (h1 : t.col < 80) :
    (HT t).col = min (8 * ((t.col + 8) / 8)) 79 ∧ (HT t).row = t.row ∧
    (HT t).screen = t.screen ∧ (HT t).history = t.history := by
  refine ⟨?_, rfl, rfl, rfl⟩
  show htLoop t.tabstops (t.width : Int) ((t.width : Int) - 1 - t.col).toNat
      t.col = _
  rw [hw, htabs]
  have hc : t.col = ((t.col.toNat : Nat) : Int) := by omega
  rw [hc]
  have hfuel : (((80:Nat) : Int) - 1 - ((t.col.toNat : Nat) : Int)).toNat =
      79 - t.col.toNat := by omega
  rw [hfuel]
  exact ht_loop_formula t.col.toNat (by omega)

/-- Witness for C6 on a fresh 24×80 terminal (column 0): tab moves the
cursor to column 8. -/
theorem C6_ht_default_tabstops_witness :
    (mkTerm 24 80).width = 80 ∧
    (mkTerm 24 80).tabstops = (mkTerm 24 80).tabstops ∧
    (0 : Int) ≤ (mkTerm 24 80).col ∧ (mkTerm 24 80).col < 80 ∧
    ((HT (mkTerm 24 80)).col = min (8 * (((mkTerm 24 80).col + 8) / 8)) 79 ∧
     (HT (mkTerm 24 80)).row = (mkTerm 24 80).row ∧
     (HT (mkTerm 24 80)).screen = (mkTerm 24 80).screen ∧
     (HT (mkTerm 24 80)).history = (mkTerm 24 80).history) :=
  ⟨rfl, rfl, by decide, by decide,
   C6_ht_default_tabstops (mkTerm 24 80) rfl rfl (by decide) (by decide)⟩

/-- Claim C8 (amended).  `to_string` returns `Option String` in this
embedding because the source hits a bare `return` (Python `None`) when
no lines were selected: the result is the absence of a value exactly
when each selected source contributes nothing (flag false or source
empty); in every other case — in particular whenever the screen is
included, since the screen always has `height` rows — a string is
returned. -/
theorem C8_to_string_none_iff (t : Terminal) (hist scr trim : Bool) :
    to_string t hist scr trim = none ↔
      ((hist = false ∨ t.history = []) ∧ (scr = false ∨ t.screen = [])) := by
  unfold to_string
  cases hist <;> cases scr <;>
    simp [List.isEmpty_iff, List.map_eq_nil_iff]

/-- Counterexample to C8 as stated: with `history=False, screen=False`
(for either trim flag) `to_string` returns no value at all, not a
string. -/
theorem C8_counterexample :
    to_string (mkTerm 2 2) false false true = none ∧
    to_string (mkTerm 2 2) false false false = none := by
  exact ⟨by decide, by decide⟩

theorem resolveIdx_neg (len : Nat) (i : Int) (h : i < 0) :
    resolveIdx len i = min (i + len).toNat len := by
  simp only [resolveIdx]
  rw [if_pos h]
  split <;> omega

/-- `scroll(n, bottom=0)` — the region `IL` uses when the cursor is on
row 0: the region is empty, yet the top `n` rows are still copied to
history (`top == 0`), and the screen is untouched. -/
theorem scroll_bottom_zero_spec (t : Terminal) (n : Int)
    (hlen : t.screen.length = t.height)
    (h1 : 0 < n) (h2 : n ≤ (t.height : Int)) :
    scroll t n none (some 0) = Except.ok { t with
      history := t.history ++ t.screen.take n.toNat } := by
  have hh1 : (1:Int) ≤ (t.height : Int) := by omega
  have hhist : pySlice t.screen 0 n = t.screen.take n.toNat := by
    rw [pySlice_eval _ _ _ le_rfl (by omega)]
    have e10 : min n.toNat t.screen.length = n.toNat := by omega
    have e11 : min (0:Int).toNat t.screen.length = 0 := by simp
    rw [e10, e11, List.drop_zero]
  have hrepl : pySlice t.screen (0 + (t.height:Int)) 0 = [] := by
    rw [pySlice_eval _ _ _ (by omega) le_rfl]
    simp
  have hset : pySetSlice t.screen 0 ((0:Int) - (t.height:Int))
      (pySlice t.screen (0 + (t.height:Int)) 0) = Except.ok t.screen := by
    rw [hrepl]
    simp only [pySetSlice, List.length_nil]
    have e1 : resolveIdx t.screen.length 0 = 0 := by
      rw [resolveIdx_nonneg _ _ le_rfl]; simp
    have e2 : resolveIdx t.screen.length ((0:Int) - (t.height:Int)) = 0 := by
      rw [resolveIdx_neg _ _ (by omega)]; omega
    rw [e1, e2]
    simp
  have hfill : pyFillSlice t.screen ((0:Int) - (t.height:Int)) 0
      (blankRow t.width) = t.screen := by
    simp only [pyFillSlice]
    have e1 : resolveIdx t.screen.length ((0:Int) - (t.height:Int)) = 0 := by
      rw [resolveIdx_neg _ _ (by omega)]; omega
    have e2 : resolveIdx t.screen.length 0 = 0 := by
      rw [resolveIdx_nonneg _ _ le_rfl]; simp
    rw [e1, e2]
    simp
  have hg : n > (0:Int) - 0 := by omega
  have hextra : (n - (t.height:Int)).toNat = 0 := by omega
  simp only [scroll, Option.getD, if_pos hg, if_pos rfl, hset, hfill, hhist,
    hextra, List.replicate_zero, List.append_nil]
  rw [if_pos h1]
  simp

/-- `scroll(n, bottom=r)` for `0 < n ≤ r < height` — the region `[0, r)`
*above* the cursor that `IL` scrolls: the top `n` rows go to history,
rows `[n, r)` move up, rows `[r-n, r)` become blank, rows `[r, height)`
are untouched. -/
theorem scroll_bottom_spec (t : Terminal) (n r : Int)
    (hlen : t.screen.length = t.height)
    (h1 : 0 < n) (hr : n ≤ r) (hrh : r < (t.height : Int)) :
    scroll t n none (some r) = Except.ok { t with
      history := t.history ++ t.screen.take n.toNat
      screen := (t.screen.take r.toNat).drop n.toNat ++
                List.replicate n.toNat (blankRow t.width) ++
                t.screen.drop r.toNat } := by
  have hhist : pySlice t.screen 0 n = t.screen.take n.toNat := by
    rw [pySlice_eval _ _ _ le_rfl (by omega)]
    have e10 : min n.toNat t.screen.length = n.toNat := by omega
    have e11 : min (0:Int).toNat t.screen.length = 0 := by simp
    rw [e10, e11, List.drop_zero]
  have hlrepl : ((t.screen.take r.toNat).drop n.toNat).length =
      (r - n).toNat := by
    rw [List.length_drop, List.length_take]
    omega
  have hrepl : pySlice t.screen (0 + n) r = (t.screen.take r.toNat).drop n.toNat := by
    rw [pySlice_eval _ _ _ (by omega) (by omega)]
    have e1 : min r.toNat t.screen.length = r.toNat := by omega
    have e2 : min ((0:Int) + n).toNat t.screen.length = n.toNat := by omega
    rw [e1, e2]
  have hset : pySetSlice t.screen 0 (r - n) (pySlice t.screen (0 + n) r) =
      Except.ok ((t.screen.take r.toNat).drop n.toNat ++
        t.screen.drop (r - n).toNat) := by
    rw [hrepl]
    simp only [pySetSlice]
    have e1 : resolveIdx t.screen.length 0 = 0 := by
      rw [resolveIdx_nonneg _ _ le_rfl]; simp
    have e2 : resolveIdx t.screen.length (r - n) = (r - n).toNat := by
      rw [resolveIdx_nonneg _ _ (by omega)]; omega
    rw [e1, e2, hlrepl]
    rw [if_pos (by omega)]
    simp
  have hs1len : ((t.screen.take r.toNat).drop n.toNat ++
      t.screen.drop (r - n).toNat).length = t.height := by
    rw [List.length_append, hlrepl, List.length_drop]
    omega
  have hfill : pyFillSlice ((t.screen.take r.toNat).drop n.toNat ++
      t.screen.drop (r - n).toNat) (r - n) r (blankRow t.width) =
      (t.screen.take r.toNat).drop n.toNat ++
        List.replicate n.toNat (blankRow t.width) ++
        t.screen.drop r.toNat := by
    simp only [pyFillSlice, hs1len]
    rw [resolveIdx_nonneg _ _ (by omega), resolveIdx_nonneg _ _ (by omega)]
    have e1 : min (r - n).toNat t.height = (r - n).toNat := by omega
    have e2 : min r.toNat t.height = r.toNat := by omega
    have e3 : max (r - n).toNat r.toNat = r.toNat := by omega
    rw [e1, e2, e3]
    rw [List.take_left' (by rw [hlrepl])]
    have e4 : r.toNat = (r - n).toNat + n.toNat := by omega
    have hdropgen : ∀ (A D : List Row) (a k m : Nat), A.length = a →
        m = a + k → (A ++ D).drop m = D.drop k := by
      intro A D a k m hA hm
      subst hm
      rw [← List.drop_drop, List.drop_left' hA]
    have e5 : ((t.screen.take r.toNat).drop n.toNat ++
        t.screen.drop (r - n).toNat).drop r.toNat =
        t.screen.drop r.toNat := by
      rw [hdropgen _ _ ((r - n).toNat) n.toNat r.toNat hlrepl (by omega)]
      rw [List.drop_drop]
      congr 1
      omega
    rw [e5]
    have e6 : r.toNat - (r - n).toNat = n.toNat := by omega
    rw [e6, List.append_assoc]
  have hg : ¬ (n > r - 0) := by omega
  simp only [scroll, Option.getD, hg, if_false, if_pos rfl, hset, hfill, hhist]
  rw [if_pos h1]
  simp [List.append_assoc]

/-- `scroll(n, top=r)` for `0 < r` and `n ≤ height - r` — the `DL`
region `[r, height)`: no history is recorded, rows `[r+n, height)` move
up to `r`, and the bottom `n` rows become blank. -/
theorem scroll_top_spec (t : Terminal) (n r : Int)
    (hlen : t.screen.length = t.height)
    (h1 : 0 < n) (hr0 : 0 < r) (hle : n ≤ (t.height:Int) - r) :
    scroll t n (some r) none = Except.ok { t with
      screen := t.screen.take r.toNat ++ t.screen.drop (r + n).toNat ++
                List.replicate n.toNat (blankRow t.width) } := by
  have hA : (t.screen.take r.toNat).length = r.toNat := by
    rw [List.length_take]; omega
  have hB : (t.screen.drop (r + n).toNat).length =
      t.height - (r + n).toNat := by
    rw [List.length_drop]; omega
  have hrepl : pySlice t.screen (r + n) (t.height:Int) =
      t.screen.drop (r + n).toNat := by
    rw [pySlice_eval _ _ _ (by omega) (by omega)]
    have e1 : min ((t.height:Int)).toNat t.screen.length = t.screen.length := by
      omega
    have e2 : min (r + n).toNat t.screen.length = (r + n).toNat := by omega
    rw [e1, e2, List.take_length]
  have hset : pySetSlice t.screen r ((t.height:Int) - n)
      (pySlice t.screen (r + n) (t.height:Int)) =
      Except.ok (t.screen.take r.toNat ++ t.screen.drop (r + n).toNat ++
        t.screen.drop ((t.height:Int) - n).toNat) := by
    rw [hrepl]
    simp only [pySetSlice]
    have e1 : resolveIdx t.screen.length r = r.toNat := by
      rw [resolveIdx_nonneg _ _ (by omega)]; omega
    have e2 : resolveIdx t.screen.length ((t.height:Int) - n) =
        ((t.height:Int) - n).toNat := by
      rw [resolveIdx_nonneg _ _ (by omega)]; omega
    rw [e1, e2]
    have e3 : max r.toNat ((t.height:Int) - n).toNat =
        ((t.height:Int) - n).toNat := by omega
    rw [e3, if_pos (by rw [List.length_drop]; omega)]
  have hs1len : ((t.screen.take r.toNat ++ t.screen.drop (r + n).toNat) ++
      t.screen.drop ((t.height:Int) - n).toNat).length = t.height := by
    simp only [List.length_append, hA, hB, List.length_drop]
    omega
  have hAB : (t.screen.take r.toNat ++ t.screen.drop (r + n).toNat).length =
      ((t.height:Int) - n).toNat := by
    rw [List.length_append, hA, hB]; omega
  have hfill : pyFillSlice (t.screen.take r.toNat ++
      t.screen.drop (r + n).toNat ++
      t.screen.drop ((t.height:Int) - n).toNat)
      ((t.height:Int) - n) (t.height:Int) (blankRow t.width) =
      t.screen.take r.toNat ++ t.screen.drop (r + n).toNat ++
        List.replicate n.toNat (blankRow t.width) := by
    simp only [pyFillSlice, hs1len]
    rw [resolveIdx_nonneg _ _ (by omega), resolveIdx_nonneg _ _ (by omega)]
    have e1 : min ((t.height:Int) - n).toNat t.height =
        ((t.height:Int) - n).toNat := by omega
    have e2 : min ((t.height:Int)).toNat t.height = t.height := by omega
    have e3 : max ((t.height:Int) - n).toNat t.height = t.height := by omega
    rw [e1, e2, e3]
    rw [List.take_left' hAB]
    have e4 : ((t.screen.take r.toNat ++ t.screen.drop (r + n).toNat) ++
        t.screen.drop ((t.height:Int) - n).toNat).drop t.height = [] :=
      List.drop_eq_nil_of_le (le_of_eq hs1len)
    rw [e4, List.append_nil]
    have e5 : t.height - ((t.height:Int) - n).toNat = n.toNat := by omega
    rw [e5, List.append_assoc]
  have hg : ¬ (n > (t.height:Int) - r) := by omega
  have htop : ¬ (r = 0) := by omega
  simp only [scroll, Option.getD, hg, if_false, htop, hset, hfill]
  rw [if_pos h1]

/-- `DL` with parameter string `str(n)` is `scroll(n, top=row)`. -/
theorem DL_eval (t : Terminal) (n : Nat) (hn : 0 < n) :
    DL t (some (Nat.repr n)) = scroll t (n : Int) (some t.row) none := by
  unfold DL
  rw [param_list_repr n hn]
  rfl

/-- `IL` with parameter string `str(n)` is `scroll(n, bottom=row)`
followed by `CUU(str(n))`. -/
theorem IL_eval (t : Terminal) (n : Nat) (hn : 0 < n) :
    IL t (some (Nat.repr n)) =
      (scroll t (n : Int) none (some t.row)).bind
        (fun u => CUU u (some (Nat.repr n))) := by
  unfold IL
  rw [param_list_repr n hn]
  rfl

/-- `CUU` with parameter string `str(n)` clips the cursor up by `n`. -/
theorem CUU_eval (t : Terminal) (n : Nat) (hn : 0 < n) :
    CUU t (some (Nat.repr n)) =
      Except.ok { t with row := clip (t.row - (n:Int)) (t.height : Int) } := by
  unfold CUU
  rw [param_list_repr n hn]
  rfl

/-- `scroll(n, bottom=r)` — the region `IL` uses — with `0 < r < n`:
the replacement slice `s[0+height:r]` is empty while the target span
`s[0:r-height]` selects `r` rows, so the numpy slice assignment raises
an uncaught broadcast `ValueError`. -/
theorem scroll_bottom_crash (t : Terminal) (n r : Int)
    (hlen : t.screen.length = t.height)
    (hr0 : 0 < r) (hrn : r < n) (hnh : n ≤ (t.height : Int)) :
    scroll t n none (some r) = Except.error Err.broadcast := by
  have hrepl : pySlice t.screen (0 + (t.height : Int)) r = [] := by
    rw [pySlice_eval _ _ _ (by omega) (by omega)]
    apply List.drop_eq_nil_of_le
    have := List.length_take (min r.toNat t.screen.length) t.screen
    omega
  have hset : pySetSlice t.screen 0 (r - (t.height : Int))
      (pySlice t.screen (0 + (t.height : Int)) r) =
      Except.error Err.broadcast := by
    rw [hrepl]
    simp only [pySetSlice, List.length_nil]
    have e1 : resolveIdx t.screen.length 0 = 0 := by
      rw [resolveIdx_nonneg _ _ le_rfl]
      simp
    have e2 : resolveIdx t.screen.length (r - (t.height : Int)) = r.toNat := by
      rw [resolveIdx_neg _ _ (by omega)]
      omega
    rw [e1, e2]
    rw [if_neg (by omega)]
  have hg : n > r - 0 := by omega
  simp only [scroll, Option.getD, if_pos hg, if_pos rfl, hset]
  rw [if_pos (by omega : n > 0)]

/-- `scroll(n, top=r)` — the region `DL` uses — with `0 < r` and `n`
larger than the region `height - r` (but `n ≤ height`): `n` is clamped
to `height`, the entire screen is blanked (even the rows above the
cursor), and history is untouched. -/
theorem scroll_top_clamp_spec (t : Terminal) (n r : Int)
    (hlen : t.screen.length = t.height)
    (hr0 : 0 < r) (hrh : r < (t.height : Int))
    (hrn : (t.height : Int) - r < n)
    (hnh : n ≤ (t.height : Int)) :
    scroll t n (some r) none = Except.ok { t with
      screen := List.replicate t.height (blankRow t.width) } := by
  have hrepl : pySlice t.screen (r + (t.height : Int)) (t.height : Int) = [] := by
    rw [pySlice_eval _ _ _ (by omega) (by omega)]
    apply List.drop_eq_nil_of_le
    rw [List.length_take]
    omega
  have hset : pySetSlice t.screen r ((t.height : Int) - (t.height : Int))
      (pySlice t.screen (r + (t.height : Int)) (t.height : Int)) =
      Except.ok t.screen := by
    rw [hrepl]
    simp only [pySetSlice, List.length_nil]
    have e1 : resolveIdx t.screen.length r = r.toNat := by
      rw [resolveIdx_nonneg _ _ (by omega)]
      omega
    have e2 : resolveIdx t.screen.length ((t.height : Int) - (t.height : Int)) =
        0 := by
      rw [resolveIdx_nonneg _ _ (by omega)]
      simp
    rw [e1, e2]
    have e3 : max r.toNat 0 = r.toNat := by omega
    rw [e3]
    rw [if_pos (by omega)]
    rw [List.append_nil, List.take_append_drop]
  have hfill : pyFillSlice t.screen ((t.height : Int) - (t.height : Int))
      (t.height : Int) (blankRow t.width) =
      List.replicate t.height (blankRow t.width) := by
    simp only [pyFillSlice]
    have e1 : resolveIdx t.screen.length ((t.height : Int) - (t.height : Int)) =
        0 := by
      rw [resolveIdx_nonneg _ _ (by omega)]
      simp
    have e2 : resolveIdx t.screen.length (t.height : Int) = t.height := by
      rw [resolveIdx_nonneg _ _ (by omega)]
      omega
    rw [e1, e2]
    rw [List.drop_eq_nil_of_le (by omega), List.append_nil, List.take_zero,
      List.nil_append]
    congr 1
    omega
  have hg : n > (t.height : Int) - r := by omega
  have hextra : (n - (t.height : Int)).toNat = 0 := by omega
  have htop : ¬ (r = 0) := by omega
  simp only [scroll, Option.getD, if_pos hg, htop, if_false, hset, hfill,
    hextra, List.replicate_zero, List.append_nil]
  rw [if_pos (by omega : n > 0)]

/-- Claim C5 (amended).  For `0 < n ≤ height`: `DL` scrolls the region
`[row, height)` below the cursor up by `n`, appending the deleted rows
to History exactly when the cursor is on row 0 and leaving History
unchanged whenever `0 < row` (if `n` exceeds that region the whole
screen is blanked); `IL`, however, scrolls the region `[0, row)`
*above* the cursor (not below it) upward: on row 0 it appends the top
`n` rows of the screen to History with the screen and cursor unchanged;
when `n ≤ row` it appends the top `n` rows to History, blanks rows
`[row - n, row)`, and moves the cursor up by `n`; when `0 < row < n`
the numpy slice assignment raises an uncaught broadcast `ValueError`,
so the sequence aborts and the cursor never moves.  The claim that
neither IL nor DL ever appends any row to History is false. -/
theorem C5_IL_DL_behaviour (t : Terminal) (n : Nat)
    (hlen : t.screen.length = t.height)
    (hrh : t.row < (t.height : Int))
    (hn : 0 < n) (hnh : (n : Int) ≤ (t.height : Int)) :
    (t.row = 0 → DL t (some (Nat.repr n)) = Except.ok { t with
        history := t.history ++ t.screen.take n
        screen := t.screen.drop n ++ List.replicate n (blankRow t.width) }) ∧
    (0 < t.row → (n : Int) ≤ (t.height : Int) - t.row →
      DL t (some (Nat.repr n)) = Except.ok { t with
        screen := t.screen.take t.row.toNat ++
                  t.screen.drop (t.row + (n:Int)).toNat ++
                  List.replicate n (blankRow t.width) }) ∧
    (t.row = 0 → IL t (some (Nat.repr n)) = Except.ok { t with
        history := t.history ++ t.screen.take n
        row := 0 }) ∧
    ((n : Int) ≤ t.row → IL t (some (Nat.repr n)) = Except.ok { t with
        history := t.history ++ t.screen.take n
        screen := (t.screen.take t.row.toNat).drop n ++
                  List.replicate n (blankRow t.width) ++
                  t.screen.drop t.row.toNat
        row := t.row - (n:Int) }) ∧
    (0 < t.row → (t.height : Int) - t.row < (n : Int) →
      DL t (some (Nat.repr n)) = Except.ok { t with
        screen := List.replicate t.height (blankRow t.width) }) ∧
    (0 < t.row → t.row < (n : Int) →
      IL t (some (Nat.repr n)) = Except.error Err.broadcast) := by
  refine ⟨?_, ?_, ?_, ?_, ?_, ?_⟩
  · intro hrow
    have hconv : scroll t (n:Int) (some t.row) none =
        scroll t (n:Int) none none := by
      rw [hrow]
      rfl
    rw [DL_eval t n hn, hconv, scroll_spec_le t (n:Int) hlen (by omega) hnh]
    rfl
  · intro hr hn2
    rw [DL_eval t n hn]
    rw [scroll_top_spec t (n:Int) t.row hlen (by omega) hr hn2]
    rfl
  · intro hrow
    have hconv : scroll t (n:Int) none (some t.row) =
        scroll t (n:Int) none (some 0) := by rw [hrow]
    rw [IL_eval t n hn, hconv,
      scroll_bottom_zero_spec t (n:Int) hlen (by omega) hnh]
    show CUU _ (some (Nat.repr n)) = _
    rw [CUU_eval _ n hn]
    dsimp only
    rw [hrow]
    have hclip : clip ((0:Int) - (n:Int)) (t.height : Int) = 0 := by
      unfold clip
      rw [if_pos (by omega)]
    rw [hclip]
    rfl
  · intro hn2
    rw [IL_eval t n hn]
    rw [scroll_bottom_spec t (n:Int) t.row hlen (by omega) hn2 hrh]
    show CUU _ (some (Nat.repr n)) = _
    rw [CUU_eval _ n hn]
    dsimp only
    have hclip : clip (t.row - (n:Int)) (t.height : Int) = t.row - (n:Int) := by
      unfold clip
      rw [if_neg (by omega), if_neg (by omega)]
    rw [hclip]
    rfl
  · intro hr hn2
    rw [DL_eval t n hn]
    rw [scroll_top_clamp_spec t (n:Int) t.row hlen hr hrh hn2 hnh]
  · intro hr hn2
    rw [IL_eval t n hn]
    rw [scroll_bottom_crash t (n:Int) t.row hlen hr hn2 hnh]
    rfl

/-- Witness for C5 on a 2×1 screen with rows `A`, `B`, cursor on row 0,
`n = 1`: `DL` deletes row `A` into history. -/
theorem C5_IL_DL_behaviour_witness :
    ({ mkTerm 2 1 with screen := [[some ⟨'A', []⟩], [some ⟨'B', []⟩]]
       : Terminal }).screen.length =
      ({ mkTerm 2 1 with screen := [[some ⟨'A', []⟩], [some ⟨'B', []⟩]]
         : Terminal }).height ∧
    ({ mkTerm 2 1 with screen := [[some ⟨'A', []⟩], [some ⟨'B', []⟩]]
       : Terminal }).row <
      (({ mkTerm 2 1 with screen := [[some ⟨'A', []⟩], [some ⟨'B', []⟩]]
          : Terminal }).height : Int) ∧
    0 < 1 ∧ ((1:Nat) : Int) ≤
      (({ mkTerm 2 1 with screen := [[some ⟨'A', []⟩], [some ⟨'B', []⟩]]
          : Terminal }).height : Int) ∧
    DL { mkTerm 2 1 with screen := [[some ⟨'A', []⟩], [some ⟨'B', []⟩]] }
        (some (Nat.repr 1)) =
      Except.ok { mkTerm 2 1 with
        history := [[some ⟨'A', []⟩]]
        screen := [[some ⟨'B', []⟩], [none]] } := by
  refine ⟨by decide, by decide, by decide, by decide, ?_⟩
  have h := (C5_IL_DL_behaviour
    { mkTerm 2 1 with screen := [[some ⟨'A', []⟩], [some ⟨'B', []⟩]] } 1
    (by decide) (by decide) (by decide) (by decide)).1 (by decide)
  rw [h]
  decide

/-- Counterexample to C5 as stated: `ESC [ L` (IL, default `n = 1`,
dispatched through `run_control` exactly as the parser does) with the
cursor on row 0 of a 2×1 screen appends a copy of row `A` to History,
which the claim says never happens. -/
theorem C5_counterexample :
    (run_control { mkTerm 2 1 with
        screen := [[some ⟨'A', []⟩], [some ⟨'B', []⟩]] }
        CtrlName.IL "").toOption.map Terminal.history =
      some [[some ⟨'A', []⟩]] ∧
    ([[some ⟨'A', []⟩]] : List Row) ≠
      ({ mkTerm 2 1 with
          screen := [[some ⟨'A', []⟩], [some ⟨'B', []⟩]] } :
        Terminal).history := by
  exact ⟨by decide, by decide⟩

/-- A resolved slice endpoint never exceeds the length. -/
theorem resolveIdx_le (len : Nat) (i : Int) : resolveIdx len i ≤ len := by
  by_cases h : i < 0
  · rw [resolveIdx_neg _ _ h]
    omega
  · rw [resolveIdx_nonneg _ _ (by omega)]
    omega

/-- Every cell inside the span of a `None` slice-fill (the primitive all
of `ED`/`EL`/`ECH` erase with) reads back as the absent cell. -/
theorem pyFillSlice_none_getD (l : Row) (a b : Int) (j : Nat)
    (h1 : resolveIdx l.length a ≤ j)
    (h2 : j < max (resolveIdx l.length a) (resolveIdx l.length b)) :
    (pyFillSlice l a b (none : Option Character)).getD j none = none := by
  have hle := resolveIdx_le l.length a
  simp only [pyFillSlice]
  rw [List.getD_eq_getElem?_getD]
  have hA : (l.take (resolveIdx l.length a)).length = resolveIdx l.length a := by
    rw [List.length_take]
    omega
  have hAB : (l.take (resolveIdx l.length a) ++
      List.replicate (max (resolveIdx l.length a) (resolveIdx l.length b) -
        resolveIdx l.length a) (none : Option Character)).length =
      max (resolveIdx l.length a) (resolveIdx l.length b) := by
    rw [List.length_append, hA, List.length_replicate]
    omega
  rw [List.getElem?_append_left (by rw [hAB]; exact h2)]
  rw [List.getElem?_append_right (by rw [hA]; exact h1)]
  rw [hA]
  rw [List.getElem?_replicate_of_lt (by omega)]
  rfl

/-- Dropping leading absent cells passes over a `replicate` of `none`. -/
theorem dropWhile_replicate_none_append (k : Nat) (x : Row) :
    List.dropWhile (fun c : Option Character => c.isNone)
        (List.replicate k none ++ x) =
      List.dropWhile (fun c : Option Character => c.isNone) x := by
  induction k with
  | zero => rfl
  | succ m ih =>
      simp only [List.replicate_succ, List.cons_append, List.dropWhile,
        Option.isNone_none]
      exact ih

/-- `fixup_line` trims any run of trailing absent cells. -/
theorem fixup_line_trims_trailing_absent (l : Row) (k : Nat) :
    fixup_line (l ++ List.replicate k none) = fixup_line l := by
  unfold fixup_line drop_end_none
  rw [List.reverse_append, List.reverse_replicate]
  rw [dropWhile_replicate_none_append]

/-- `fixup_line` keeps a written blank (`Character ' '`) at the end of a
line: the rendered line still contains it. -/
theorem fixup_line_keeps_written_blank (l : Row) (a : Attr) :
    fixup_line (l ++ [some ⟨' ', a⟩]) =
      l.map (fun x => x.getD ⟨' ', []⟩) ++ [⟨' ', a⟩] := by
  unfold fixup_line drop_end_none
  rw [List.reverse_append]
  simp [List.dropWhile]

/-- `EL` with default parameter (erase to right): the cells from the
cursor to the end of the row become `None`. -/
theorem EL_default_spec (t : Terminal) (hc0 : 0 ≤ t.col)
    (hcw : t.col ≤ (((t.screen.getD t.row.toNat []).length : Nat) : Int)) :
    EL t (some "") = Except.ok { t with
      screen := t.screen.set t.row.toNat
                  ((t.screen.getD t.row.toNat []).take t.col.toNat ++
                   List.replicate
                     ((t.screen.getD t.row.toNat []).length - t.col.toNat)
                     none) } := by
  have hp : param_list (some "") 0 true 1 = Except.ok [0] := rfl
  unfold EL
  rw [hp]
  show Except.ok _ = _
  have hfill : pyFillSlice (t.screen.getD t.row.toNat []) t.col
      (((t.screen.getD t.row.toNat []).length : Nat) : Int)
      (none : Option Character) =
      (t.screen.getD t.row.toNat []).take t.col.toNat ++
        List.replicate ((t.screen.getD t.row.toNat []).length - t.col.toNat)
          none := by
    simp only [pyFillSlice]
    rw [resolveIdx_nonneg _ _ hc0, resolveIdx_nonneg _ _ (by omega)]
    have e1 : min t.col.toNat (t.screen.getD t.row.toNat []).length =
        t.col.toNat := by omega
    have e2 : min (((t.screen.getD t.row.toNat []).length : Nat) : Int).toNat
        (t.screen.getD t.row.toNat []).length =
        (t.screen.getD t.row.toNat []).length := by omega
    rw [e1, e2]
    have e3 : max t.col.toNat (t.screen.getD t.row.toNat []).length =
        (t.screen.getD t.row.toNat []).length := by omega
    rw [e3, List.drop_length, List.append_nil]
  rw [hfill]

/-- `ECH` with default parameter: the cell under the cursor becomes
`None`. -/
theorem ECH_default_spec (t : Terminal) (hc0 : 0 ≤ t.col)
    (hcw : t.col < (((t.screen.getD t.row.toNat []).length : Nat) : Int)) :
    ECH t (some "") = Except.ok { t with
      screen := t.screen.set t.row.toNat
                  ((t.screen.getD t.row.toNat []).take t.col.toNat ++
                   [none] ++
                   (t.screen.getD t.row.toNat []).drop (t.col.toNat + 1)) } := by
  have hp : param_list (some "") 1 true 1 = Except.ok [1] := rfl
  unfold ECH
  rw [hp]
  show Except.ok _ = _
  dsimp only [List.headD]
  have hfill : pyFillSlice (t.screen.getD t.row.toNat []) t.col
      (t.col + ((1:Nat) : Int)) (none : Option Character) =
      (t.screen.getD t.row.toNat []).take t.col.toNat ++ [none] ++
        (t.screen.getD t.row.toNat []).drop (t.col.toNat + 1) := by
    simp only [pyFillSlice]
    rw [resolveIdx_nonneg _ _ hc0, resolveIdx_nonneg _ _ (by omega)]
    have e1 : min t.col.toNat (t.screen.getD t.row.toNat []).length =
        t.col.toNat := by omega
    have e2 : min (t.col + ((1:Nat) : Int)).toNat
        (t.screen.getD t.row.toNat []).length = t.col.toNat + 1 := by omega
    rw [e1, e2]
    have e3 : max t.col.toNat (t.col.toNat + 1) = t.col.toNat + 1 := by omega
    rw [e3]
    have e4 : t.col.toNat + 1 - t.col.toNat = 1 := by omega
    rw [e4, List.replicate_one]
  rw [hfill]

/-- `ED` with default parameter (erase below): the rest of the cursor row
and every row below become `None` cells. -/
theorem ED_default_spec (t : Terminal)
    (hlen : t.screen.length = t.height)
    (hr0 : 0 ≤ t.row) (hrh : t.row < (t.height : Int))
    (hc0 : 0 ≤ t.col)
    (hcw : t.col ≤ (((t.screen.getD t.row.toNat []).length : Nat) : Int)) :
    ED t (some "") = Except.ok { t with
      screen := (t.screen.set t.row.toNat
                   ((t.screen.getD t.row.toNat []).take t.col.toNat ++
                    List.replicate
                      ((t.screen.getD t.row.toNat []).length - t.col.toNat)
                      none)).take (t.row.toNat + 1) ++
                List.replicate (t.height - (t.row.toNat + 1))
                  (blankRow t.width) } := by
  have hp : param_list (some "") 0 true 1 = Except.ok [0] := rfl
  unfold ED
  rw [hp]
  show Except.ok _ = _
  have hfill1 : pyFillSlice (t.screen.getD t.row.toNat []) t.col
      (((t.screen.getD t.row.toNat []).length : Nat) : Int)
      (none : Option Character) =
      (t.screen.getD t.row.toNat []).take t.col.toNat ++
        List.replicate ((t.screen.getD t.row.toNat []).length - t.col.toNat)
          none := by
    simp only [pyFillSlice]
    rw [resolveIdx_nonneg _ _ hc0, resolveIdx_nonneg _ _ (by omega)]
    have e1 : min t.col.toNat (t.screen.getD t.row.toNat []).length =
        t.col.toNat := by omega
    have e2 : min (((t.screen.getD t.row.toNat []).length : Nat) : Int).toNat
        (t.screen.getD t.row.toNat []).length =
        (t.screen.getD t.row.toNat []).length := by omega
    rw [e1, e2]
    have e3 : max t.col.toNat (t.screen.getD t.row.toNat []).length =
        (t.screen.getD t.row.toNat []).length := by omega
    rw [e3, List.drop_length, List.append_nil]
  rw [hfill1]
  have hslen : (t.screen.set t.row.toNat
      ((t.screen.getD t.row.toNat []).take t.col.toNat ++
       List.replicate ((t.screen.getD t.row.toNat []).length - t.col.toNat)
         none)).length = t.height := by
    rw [List.length_set, hlen]
  have hfill2 : pyFillSlice (t.screen.set t.row.toNat
      ((t.screen.getD t.row.toNat []).take t.col.toNat ++
       List.replicate ((t.screen.getD t.row.toNat []).length - t.col.toNat)
         none)) (t.row + 1)
      (((t.screen.set t.row.toNat
          ((t.screen.getD t.row.toNat []).take t.col.toNat ++
           List.replicate
             ((t.screen.getD t.row.toNat []).length - t.col.toNat)
             none)).length : Nat) : Int)
      (blankRow t.width) =
      (t.screen.set t.row.toNat
        ((t.screen.getD t.row.toNat []).take t.col.toNat ++
         List.replicate ((t.screen.getD t.row.toNat []).length - t.col.toNat)
           none)).take (t.row.toNat + 1) ++
        List.replicate (t.height - (t.row.toNat + 1)) (blankRow t.width) := by
    simp only [pyFillSlice, hslen]
    rw [resolveIdx_nonneg _ _ (by omega), resolveIdx_nonneg _ _ (by omega)]
    have e1 : min (t.row + 1).toNat t.height = t.row.toNat + 1 := by omega
    have e2 : min ((t.height : Nat) : Int).toNat t.height = t.height := by
      omega
    rw [e1, e2]
    have e3 : max (t.row.toNat + 1) t.height = t.height := by omega
    rw [e3]
    rw [List.drop_eq_nil_of_le (le_of_eq hslen), List.append_nil]
  rw [hfill2]

/-- `DCH` with default parameter: the row is shifted left after the
cursor and the vacated right edge is filled with `None`. -/
theorem DCH_default_spec (t : Terminal) (hc0 : 0 ≤ t.col)
    (hcw : t.col < (((t.screen.getD t.row.toNat []).length : Nat) : Int)) :
    DCH t (some "") = Except.ok { t with
      screen := t.screen.set t.row.toNat
                  ((t.screen.getD t.row.toNat []).take t.col.toNat ++
                   (t.screen.getD t.row.toNat []).drop (t.col.toNat + 1) ++
                   [none]) } := by
  have hp : param_list (some "") 1 true 1 = Except.ok [1] := rfl
  unfold DCH
  rw [hp]
  have hset : pySetSlice (t.screen.getD t.row.toNat []) t.col
      (-((1:Nat) : Int))
      (pySlice (t.screen.getD t.row.toNat []) (t.col + ((1:Nat) : Int))
        (((t.screen.getD t.row.toNat []).length : Nat) : Int)) =
      Except.ok ((t.screen.getD t.row.toNat []).take t.col.toNat ++
        (t.screen.getD t.row.toNat []).drop (t.col.toNat + 1) ++
        (t.screen.getD t.row.toNat []).drop
          ((t.screen.getD t.row.toNat []).length - 1)) := by
    have hrepl : pySlice (t.screen.getD t.row.toNat [])
        (t.col + ((1:Nat) : Int))
        (((t.screen.getD t.row.toNat []).length : Nat) : Int) =
        (t.screen.getD t.row.toNat []).drop (t.col.toNat + 1) := by
      rw [pySlice_eval _ _ _ (by omega) (by omega)]
      have e1 : min (((t.screen.getD t.row.toNat []).length : Nat) : Int).toNat
          (t.screen.getD t.row.toNat []).length =
          (t.screen.getD t.row.toNat []).length := by omega
      have e2 : min (t.col + ((1:Nat) : Int)).toNat
          (t.screen.getD t.row.toNat []).length = t.col.toNat + 1 := by omega
      rw [e1, e2, List.take_length]
    rw [hrepl]
    simp only [pySetSlice]
    rw [resolveIdx_nonneg _ _ hc0, resolveIdx_neg _ _ (by omega)]
    have e1 : min t.col.toNat (t.screen.getD t.row.toNat []).length =
        t.col.toNat := by omega
    have e2 : min (-((1:Nat) : Int) +
        (t.screen.getD t.row.toNat []).length).toNat
        (t.screen.getD t.row.toNat []).length =
        (t.screen.getD t.row.toNat []).length - 1 := by omega
    rw [e1, e2]
    have e3 : max t.col.toNat ((t.screen.getD t.row.toNat []).length - 1) =
        (t.screen.getD t.row.toNat []).length - 1 := by omega
    rw [e3]
    rw [if_pos (by rw [List.length_drop]; omega)]
  dsimp only [List.headD, bind, Except.bind, Except.instMonad]
  rw [hset]
  dsimp only
  have hABl : ((t.screen.getD t.row.toNat []).take t.col.toNat ++
      (t.screen.getD t.row.toNat []).drop (t.col.toNat + 1)).length =
      (t.screen.getD t.row.toNat []).length - 1 := by
    rw [List.length_append, List.length_take, List.length_drop]
    omega
  have hl1 : ((t.screen.getD t.row.toNat []).take t.col.toNat ++
      (t.screen.getD t.row.toNat []).drop (t.col.toNat + 1) ++
      (t.screen.getD t.row.toNat []).drop
        ((t.screen.getD t.row.toNat []).length - 1)).length =
      (t.screen.getD t.row.toNat []).length := by
    rw [List.length_append, hABl, List.length_drop]
    omega
  have hfill : pyFillSlice ((t.screen.getD t.row.toNat []).take t.col.toNat ++
      (t.screen.getD t.row.toNat []).drop (t.col.toNat + 1) ++
      (t.screen.getD t.row.toNat []).drop
        ((t.screen.getD t.row.toNat []).length - 1))
      (-((1:Nat) : Int))
      ((((t.screen.getD t.row.toNat []).take t.col.toNat ++
         (t.screen.getD t.row.toNat []).drop (t.col.toNat + 1) ++
         (t.screen.getD t.row.toNat []).drop
           ((t.screen.getD t.row.toNat []).length - 1)).length : Nat) : Int)
      (none : Option Character) =
      (t.screen.getD t.row.toNat []).take t.col.toNat ++
        (t.screen.getD t.row.toNat []).drop (t.col.toNat + 1) ++ [none] := by
    simp only [pyFillSlice, hl1]
    rw [resolveIdx_neg _ _ (by omega), resolveIdx_nonneg _ _ (by omega)]
    have e1 : min (-((1:Nat) : Int) +
        (t.screen.getD t.row.toNat []).length).toNat
        (t.screen.getD t.row.toNat []).length =
        (t.screen.getD t.row.toNat []).length - 1 := by omega
    have e2 : min (((t.screen.getD t.row.toNat []).length : Nat) : Int).toNat
        (t.screen.getD t.row.toNat []).length =
        (t.screen.getD t.row.toNat []).length := by omega
    rw [e1, e2]
    have e3 : max ((t.screen.getD t.row.toNat []).length - 1)
        (t.screen.getD t.row.toNat []).length =
        (t.screen.getD t.row.toNat []).length := by omega
    rw [e3]
    rw [List.take_left' hABl]
    have e4 : ((t.screen.getD t.row.toNat []).take t.col.toNat ++
        (t.screen.getD t.row.toNat []).drop (t.col.toNat + 1) ++
        (t.screen.getD t.row.toNat []).drop
          ((t.screen.getD t.row.toNat []).length - 1)).drop
        (t.screen.getD t.row.toNat []).length = [] :=
      List.drop_eq_nil_of_le (le_of_eq hl1)
    rw [e4, List.append_nil]
    have e5 : (t.screen.getD t.row.toNat []).length -
        ((t.screen.getD t.row.toNat []).length - 1) = 1 := by omega
    rw [e5, List.replicate_one]
  rw [hfill]
  rfl

/-- Claim C10.  Cells cleared by the erase operations — `EL` (to right),
`ECH`, `ED` (below), and the right-edge fill of `DCH`, each with its
default parameter — become the distinct absent state `none`
(`List.replicate _ none` / `[none]`), never a written blank
`some ⟨' ', _⟩`; `fixup_line` trims trailing absent cells from a
rendered line, whereas a cell holding an explicitly written space
character survives rendering. -/
theorem C10_erase_absent_and_trimming (t : Terminal)
    (hlen : t.screen.length = t.height)
    (hr0 : 0 ≤ t.row) (hrh : t.row < (t.height : Int))
    (hc0 : 0 ≤ t.col)
    (hcw : t.col < (((t.screen.getD t.row.toNat []).length : Nat) : Int)) :
    (EL t (some "") = Except.ok { t with
       screen := t.screen.set t.row.toNat
                   ((t.screen.getD t.row.toNat []).take t.col.toNat ++
                    List.replicate
                      ((t.screen.getD t.row.toNat []).length - t.col.toNat)
                      none) }) ∧
    (ECH t (some "") = Except.ok { t with
       screen := t.screen.set t.row.toNat
                   ((t.screen.getD t.row.toNat []).take t.col.toNat ++
                    [none] ++
                    (t.screen.getD t.row.toNat []).drop
                      (t.col.toNat + 1)) }) ∧
    (ED t (some "") = Except.ok { t with
       screen := (t.screen.set t.row.toNat
                    ((t.screen.getD t.row.toNat []).take t.col.toNat ++
                     List.replicate
                       ((t.screen.getD t.row.toNat []).length - t.col.toNat)
                       none)).take (t.row.toNat + 1) ++
                 List.replicate (t.height - (t.row.toNat + 1))
                   (blankRow t.width) }) ∧
    (DCH t (some "") = Except.ok { t with
       screen := t.screen.set t.row.toNat
                   ((t.screen.getD t.row.toNat []).take t.col.toNat ++
                    (t.screen.getD t.row.toNat []).drop (t.col.toNat + 1) ++
                    [none]) }) ∧
    (∀ (l : Row) (k : Nat),
      fixup_line (l ++ List.replicate k none) = fixup_line l) ∧
    (∀ (l : Row) (a : Attr),
      fixup_line (l ++ [some ⟨' ', a⟩]) =
        l.map (fun x => x.getD ⟨' ', []⟩) ++ [⟨' ', a⟩]) :=
  ⟨EL_default_spec t hc0 (by omega),
   ECH_default_spec t hc0 hcw,
   ED_default_spec t hlen hr0 hrh hc0 (by omega),
   DCH_default_spec t hc0 hcw,
   fun l k => fixup_line_trims_trailing_absent l k,
   fun l a => fixup_line_keeps_written_blank l a⟩

/-- Witness for C10 on a 1×2 screen whose row holds `A B` with the
cursor at column 1: `EL` turns the second cell into `none`. -/
theorem C10_erase_absent_and_trimming_witness :
    exTermRowAB.screen.length = exTermRowAB.height ∧
    (0:Int) ≤ exTermRowAB.row ∧
    exTermRowAB.row < (exTermRowAB.height : Int) ∧
    (0:Int) ≤ exTermRowAB.col ∧
    exTermRowAB.col <
      (((exTermRowAB.screen.getD exTermRowAB.row.toNat []).length : Nat) :
        Int) ∧
    EL exTermRowAB (some "") =
      Except.ok { exTermRowAB with screen := [[some ⟨'A', []⟩, none]] } := by
  refine ⟨by decide, by decide, by decide, by decide, by decide, ?_⟩
  have h := (C10_erase_absent_and_trimming exTermRowAB
    (by decide) (by decide) (by decide) (by decide) (by decide)).1
  rw [h]
  decide

/-- The cursor bounds invariant of the claim: `0 ≤ row < height` and
`0 ≤ col ≤ width` (with positive dimensions). -/
def WF (t : Terminal) : Prop :=
  0 < t.height ∧ 0 < t.width ∧ 0 ≤ t.row ∧ t.row < (t.height : Int) ∧
    0 ≤ t.col ∧ t.col ≤ (t.width : Int)

instance (t : Terminal) : Decidable (WF t) := by
  unfold WF
  infer_instance

/-- The invariant after a fallible step: it holds of the new state when
the step succeeds (a raised exception aborts the parse). -/
def WFafter (r : Except Err Terminal) : Prop :=
  match r with
  | Except.ok t => WF t
  | Except.error _ => True

theorem WFafter_ok {t : Terminal} (h : WF t) : WFafter (Except.ok t) := h

theorem WFafter_bind {e : Except Err Terminal}
    {f : Terminal → Except Err Terminal}
    (he : WFafter e) (hf : ∀ u, WF u → WFafter (f u)) :
    WFafter (e.bind f) := by
  cases e with
  | ok u => exact hf u he
  | error err => trivial

theorem clip_bounds (n stop : Int) (h : 0 < stop) :
    0 ≤ clip n stop ∧ clip n stop < stop := by
  unfold clip
  split_ifs <;> omega

theorem scroll_fields (t : Terminal) (n : Int) (a b : Option Int)
    (t' : Terminal) (heq : scroll t n a b = Except.ok t') :
    t'.row = t.row ∧ t'.col = t.col ∧ t'.height = t.height ∧
      t'.width = t.width := by
  unfold scroll at heq
  dsimp only at heq
  split_ifs at heq
  all_goals try split at heq
  all_goals
    first
    | exact Except.noConfusion heq
    | (injection heq with h
       subst h
       exact ⟨rfl, rfl, rfl, rfl⟩)

theorem WF_scroll (t : Terminal) (n : Int) (a b : Option Int) (h : WF t) :
    WFafter (scroll t n a b) := by
  cases heq : scroll t n a b with
  | ok t' =>
      obtain ⟨h1, h2, h3, h4⟩ := scroll_fields t n a b t' heq
      exact show WF t' by rw [WF, h1, h2, h3, h4]; exact h
  | error e => trivial

theorem IND_spec (t : Terminal) (h : WF t) (t' : Terminal)
    (heq : IND t = Except.ok t') :
    WF t' ∧ t'.col = t.col ∧ t'.height = t.height ∧ t'.width = t.width := by
  obtain ⟨h1, h2, h3, h4, h5, h6⟩ := h
  unfold IND at heq
  split_ifs at heq with hc
  · injection heq with he
    subst he
    refine ⟨?_, rfl, rfl, rfl⟩
    unfold WF
    dsimp only
    omega
  · obtain ⟨e1, e2, e3, e4⟩ := scroll_fields t 1 none none t' heq
    refine ⟨?_, e2, e3, e4⟩
    rw [WF, e1, e2, e3, e4]
    exact ⟨h1, h2, h3, h4, h5, h6⟩

theorem NEL_spec (t : Terminal) (h : WF t) (t' : Terminal)
    (heq : NEL t = Except.ok t') :
    WF t' ∧ t'.col = 0 ∧ t'.height = t.height ∧ t'.width = t.width := by
  unfold NEL at heq
  cases hi : IND t with
  | ok u =>
      rw [hi] at heq
      obtain ⟨⟨u1, u2, u3, u4, u5, u6⟩, _, e3, e4⟩ := IND_spec t h u hi
      injection heq with he
      subst he
      refine ⟨?_, rfl, e3, e4⟩
      unfold WF
      dsimp only
      omega
  | error e =>
      rw [hi] at heq
      exact Except.noConfusion heq

theorem RI_WF (t : Terminal) (h : WF t) : WFafter (RI t) := by
  obtain ⟨h1, h2, h3, h4, h5, h6⟩ := h
  unfold RI
  split_ifs with hc
  · show WF _
    unfold WF
    dsimp only
    omega
  · exact WF_scroll t (-1) none none ⟨h1, h2, h3, h4, h5, h6⟩

theorem output_spec (t : Terminal) (h : WF t) (c : Char) (t' : Terminal)
    (heq : output t c = Except.ok t') :
    WF t' ∧ t'.height = t.height ∧ t'.width = t.width := by
  unfold output at heq
  split_ifs at heq with hw
  · cases hn : NEL t with
    | ok u =>
        rw [hn] at heq
        obtain ⟨⟨u1, u2, u3, u4, u5, u6⟩, hcol0, e3, e4⟩ := NEL_spec t h u hn
        injection heq with he
        subst he
        refine ⟨?_, e3, e4⟩
        unfold WF
        dsimp only
        omega
    | error e =>
        rw [hn] at heq
        exact Except.noConfusion heq
  · obtain ⟨h1, h2, h3, h4, h5, h6⟩ := h
    injection heq with he
    subst he
    refine ⟨?_, rfl, rfl⟩
    unfold WF
    dsimp only
    omega

theorem output_WF (t : Terminal) (c : Char) (h : WF t) :
    WFafter (output t c) := by
  cases heq : output t c with
  | ok u => exact (output_spec t h c u heq).1
  | error e => trivial

theorem htLoop_bounds (tabs : List Bool) (w : Int) :
    ∀ (fuel : Nat) (col : Int), 0 ≤ col → col ≤ w →
      0 ≤ htLoop tabs w fuel col ∧ htLoop tabs w fuel col ≤ w := by
  intro fuel
  induction fuel with
  | zero => intro col hc1 hc2; exact ⟨hc1, hc2⟩
  | succ m ih =>
      intro col hc1 hc2
      unfold htLoop
      dsimp only
      split_ifs with hlt hts
      · exact ⟨by omega, by omega⟩
      · exact ih (col + 1) (by omega) (by omega)
      · exact ⟨hc1, hc2⟩

theorem HT_WF (t : Terminal) (h : WF t) : WF (HT t) := by
  obtain ⟨h1, h2, h3, h4, h5, h6⟩ := h
  have hb := htLoop_bounds t.tabstops (t.width : Int)
    (((t.width : Int) - 1 - t.col).toNat) t.col h5 h6
  unfold HT WF
  dsimp only
  omega

theorem cbtLoop_bounds (tabs : List Bool) :
    ∀ (fuel : Nat) (col : Int), 0 ≤ col →
      0 ≤ cbtLoop tabs fuel col ∧ cbtLoop tabs fuel col ≤ col := by
  intro fuel
  induction fuel with
  | zero => intro col hc; exact ⟨hc, le_rfl⟩
  | succ m ih =>
      intro col hc
      unfold cbtLoop
      dsimp only
      split_ifs with hlt hts
      · exact ⟨by omega, by omega⟩
      · have := ih (col - 1) (by omega)
        exact ⟨this.1, by omega⟩
      · exact ⟨hc, le_rfl⟩

theorem BS_WF (t : Terminal) (h : WF t) : WF (BS t) := by
  obtain ⟨h1, h2, h3, h4, h5, h6⟩ := h
  unfold BS WF
  dsimp only
  split_ifs <;> omega

theorem execute_WF (t : Terminal) (c : Char) (h : WF t) :
    WFafter (execute t c) := by
  have h' := h
  obtain ⟨h1, h2, h3, h4, h5, h6⟩ := h
  unfold execute
  split
  · exact BS_WF t h'
  · exact HT_WF t h'
  · cases heq : IND t with
    | ok u => exact (IND_spec t h' u heq).1
    | error e => trivial
  · cases heq : IND t with
    | ok u => exact (IND_spec t h' u heq).1
    | error e => trivial
  · cases heq : IND t with
    | ok u => exact (IND_spec t h' u heq).1
    | error e => trivial
  · show WF _
    unfold WF
    dsimp only
    omega
  · exact h'
  · exact h'
  · exact h'
  · exact h'

theorem WF_set_row (t : Terminal) (h : WF t) (r : Int) (hr0 : 0 ≤ r)
    (hrh : r < (t.height : Int)) : WF { t with row := r } := by
  obtain ⟨h1, h2, h3, h4, h5, h6⟩ := h
  unfold WF
  dsimp only
  omega

theorem WF_set_col (t : Terminal) (h : WF t) (c : Int) (hc0 : 0 ≤ c)
    (hcw : c ≤ (t.width : Int)) : WF { t with col := c } := by
  obtain ⟨h1, h2, h3, h4, h5, h6⟩ := h
  unfold WF
  dsimp only
  omega

theorem CUU_WF (t : Terminal) (p : Option String) (h : WF t) :
    WFafter (CUU t p) := by
  unfold CUU
  cases hp : param_list p 1 true 1 with
  | ok l =>
      have hc := clip_bounds (t.row - (l.headD 1 : Nat)) (t.height : Int)
        (by obtain ⟨h1, _⟩ := h; omega)
      exact WF_set_row t h _ hc.1 hc.2
  | error e =>
      exact trivial

theorem CUD_WF (t : Terminal) (p : Option String) (h : WF t) :
    WFafter (CUD t p) := by
  unfold CUD
  cases hp : param_list p 1 true 1 with
  | ok l =>
      have hc := clip_bounds (t.row + (l.headD 1 : Nat)) (t.height : Int)
        (by obtain ⟨h1, _⟩ := h; omega)
      exact WF_set_row t h _ hc.1 hc.2
  | error e =>
      exact trivial

theorem CUF_WF (t : Terminal) (p : Option String) (h : WF t) :
    WFafter (CUF t p) := by
  unfold CUF
  cases hp : param_list p 1 true 1 with
  | ok l =>
      have hc := clip_bounds (t.col + (l.headD 1 : Nat)) (t.width : Int)
        (by obtain ⟨_, h2, _⟩ := h; omega)
      exact WF_set_col t h _ hc.1 (by omega)
  | error e =>
      exact trivial

theorem CUB_WF (t : Terminal) (p : Option String) (h : WF t) :
    WFafter (CUB t p) := by
  unfold CUB
  cases hp : param_list p 1 true 1 with
  | ok l =>
      have hc := clip_bounds (t.col - (l.headD 1 : Nat)) (t.width : Int)
        (by obtain ⟨_, h2, _⟩ := h; omega)
      exact WF_set_col t h _ hc.1 (by omega)
  | error e =>
      exact trivial

theorem CHA_WF (t : Terminal) (p : Option String) (h : WF t) :
    WFafter (CHA t p) := by
  unfold CHA
  cases hp : param_list p 1 true 1 with
  | ok l =>
      have hc := clip_bounds ((l.headD 1 : Nat) - 1 : Int) (t.width : Int)
        (by obtain ⟨_, h2, _⟩ := h; omega)
      exact WF_set_col t h _ hc.1 (by omega)
  | error e =>
      exact trivial

theorem VPA_WF (t : Terminal) (p : Option String) (h : WF t) :
    WFafter (VPA t p) := by
  unfold VPA
  cases hp : param_list p 1 true 1 with
  | ok l =>
      have hc := clip_bounds ((l.headD 1 : Nat) - 1 : Int) (t.height : Int)
        (by obtain ⟨h1, _⟩ := h; omega)
      exact WF_set_row t h _ hc.1 hc.2
  | error e =>
      exact trivial

theorem CUP_WF (t : Terminal) (p : Option String) (h : WF t) :
    WFafter (CUP t p) := by
  obtain ⟨h1, h2, h3, h4, h5, h6⟩ := h
  unfold CUP
  cases hp : param_list p 1 true 2 with
  | ok l =>
      have hr := clip_bounds ((l.headD 1 : Nat) - 1 : Int) (t.height : Int)
        (by omega)
      have hc := clip_bounds ((l.getD 1 1 : Nat) - 1 : Int) (t.width : Int)
        (by omega)
      show WF _
      unfold WF
      dsimp only
      omega
  | error e =>
      exact trivial

theorem ED_WF (t : Terminal) (p : Option String) (h : WF t) :
    WFafter (ED t p) := by
  unfold ED
  cases hp : param_list p 0 true 1 with
  | ok l =>
      dsimp only [bind, Except.bind, Except.instMonad]
      split_ifs <;> exact h
  | error e => exact trivial

theorem EL_WF (t : Terminal) (p : Option String) (h : WF t) :
    WFafter (EL t p) := by
  unfold EL
  cases hp : param_list p 0 true 1 with
  | ok l =>
      dsimp only [bind, Except.bind, Except.instMonad]
      split_ifs <;> exact h
  | error e => exact trivial

theorem ECH_WF (t : Terminal) (p : Option String) (h : WF t) :
    WFafter (ECH t p) := by
  unfold ECH
  cases hp : param_list p 1 true 1 with
  | ok l => exact h
  | error e => exact trivial

theorem TBC_WF (t : Terminal) (p : Option String) (h : WF t) :
    WFafter (TBC t p) := by
  unfold TBC
  cases hp : param_list p 0 true 1 with
  | ok l =>
      dsimp only [bind, Except.bind, Except.instMonad]
      split_ifs <;> exact h
  | error e => exact trivial

theorem DCH_WF (t : Terminal) (p : Option String) (h : WF t) :
    WFafter (DCH t p) := by
  unfold DCH
  cases hp : param_list p 1 true 1 with
  | ok l =>
      dsimp only [bind, Except.bind, Except.instMonad]
      split
      · exact h
      · exact trivial
  | error e => exact trivial

theorem SU_WF (t : Terminal) (p : Option String) (h : WF t) :
    WFafter (SU t p) := by
  unfold SU
  cases hp : param_list p 1 true 1 with
  | ok l => exact WF_scroll t _ none none h
  | error e => exact trivial

theorem SD_WF (t : Terminal) (p : Option String) (h : WF t) :
    WFafter (SD t p) := by
  unfold SD
  cases hp : param_list p 1 true 1 with
  | ok l => exact WF_scroll t _ none none h
  | error e => exact trivial

theorem DL_WF (t : Terminal) (p : Option String) (h : WF t) :
    WFafter (DL t p) := by
  unfold DL
  cases hp : param_list p 1 true 1 with
  | ok l => exact WF_scroll t _ (some t.row) none h
  | error e => exact trivial

theorem IL_WF (t : Terminal) (p : Option String) (h : WF t) :
    WFafter (IL t p) := by
  unfold IL
  cases hp : param_list p 1 true 1 with
  | ok l =>
      exact WFafter_bind (WF_scroll t _ none (some t.row) h)
        (fun u hu => CUU_WF u _ hu)
  | error e => exact trivial

theorem iterate_HT_WF : ∀ (k : Nat) (t : Terminal), WF t →
    WF (Nat.rec t (fun _ acc => HT acc) k : Terminal) := by
  intro k
  induction k with
  | zero => intro t h; exact h
  | succ m ih => intro t h; exact HT_WF _ (ih t h)

theorem CHT_WF (t : Terminal) (p : Option String) (h : WF t) :
    WFafter (CHT t p) := by
  unfold CHT
  cases hp : param_list p 1 true 1 with
  | ok l => exact iterate_HT_WF (l.headD 1) t h
  | error e => exact trivial

theorem cbt_step_WF (t : Terminal) (h : WF t) :
    WF { t with col := cbtLoop t.tabstops t.col.toNat t.col } := by
  obtain ⟨h1, h2, h3, h4, h5, h6⟩ := h
  have hb := cbtLoop_bounds t.tabstops t.col.toNat t.col h5
  unfold WF
  dsimp only
  omega

theorem iterate_CBT_WF : ∀ (k : Nat) (t : Terminal), WF t →
    WF (Nat.rec t
      (fun _ acc => { acc with col := cbtLoop acc.tabstops acc.col.toNat acc.col })
      k : Terminal) := by
  intro k
  induction k with
  | zero => intro t h; exact h
  | succ m ih => intro t h; exact cbt_step_WF _ (ih t h)

theorem CBT_WF (t : Terminal) (p : Option String) (h : WF t) :
    WFafter (CBT t p) := by
  unfold CBT
  cases hp : param_list p 1 true 1 with
  | ok l => exact iterate_CBT_WF (l.headD 1) t h
  | error e => exact trivial

theorem output_fold_WF : ∀ (l : List Nat) (t : Terminal), WF t →
    WFafter (l.foldlM (fun acc _ => output acc acc.previous) t) := by
  intro l
  induction l with
  | nil => intro t h; exact h
  | cons x xs ih =>
      intro t h
      rw [List.foldlM_cons]
      cases ho : output t t.previous with
      | ok u =>
          have hu := output_spec t h t.previous u ho
          exact ih u hu.1
      | error e => exact trivial

theorem REP_WF (t : Terminal) (p : Option String) (h : WF t) :
    WFafter (REP t p) := by
  unfold REP
  cases hp : param_list p 1 true 1 with
  | ok l =>
      dsimp only [bind, Except.bind, Except.instMonad]
      split_ifs
      · exact output_fold_WF (List.range (l.headD 1)) t h
      · exact h
  | error e => exact trivial

theorem sgr_step_WF (t : Terminal) (n : Nat) (h : WF t) :
    WFafter (sgr_step t n) := by
  unfold sgr_step
  split <;> first | exact h | exact trivial

theorem sgr_fold_WF : ∀ (l : List Nat) (t : Terminal), WF t →
    WFafter (l.foldlM sgr_step t) := by
  intro l
  induction l with
  | nil => intro t h; exact h
  | cons x xs ih =>
      intro t h
      rw [List.foldlM_cons]
      cases hs : sgr_step t x with
      | ok u =>
          have hu := sgr_step_WF t x h
          rw [hs] at hu
          exact ih u hu
      | error e => exact trivial

theorem SGR_WF (t : Terminal) (p : String) (h : WF t) :
    WFafter (SGR t p) := by
  unfold SGR
  cases hp : param_list (some p) 0 true 1 with
  | ok l => exact sgr_fold_WF l t h
  | error e => exact trivial

theorem CNL_WF (t : Terminal) (p : Option String) (h : WF t) :
    WFafter (CNL t p) := by
  unfold CNL
  refine WFafter_bind (CUD_WF t p h) (fun u hu => ?_)
  exact WF_set_col u hu 0 le_rfl (by obtain ⟨_, h2, _⟩ := hu; omega)

theorem CPL_WF (t : Terminal) (p : Option String) (h : WF t) :
    WFafter (CPL t p) := by
  unfold CPL
  refine WFafter_bind (CUU_WF t p h) (fun u hu => ?_)
  exact WF_set_col u hu 0 le_rfl (by obtain ⟨_, h2, _⟩ := hu; omega)

theorem IND_WF (t : Terminal) (h : WF t) : WFafter (IND t) := by
  cases heq : IND t with
  | ok u => exact (IND_spec t h u heq).1
  | error e => exact trivial

theorem NEL_WF (t : Terminal) (h : WF t) : WFafter (NEL t) := by
  cases heq : NEL t with
  | ok u => exact (NEL_spec t h u heq).1
  | error e => exact trivial

theorem run_control_WF (t : Terminal) (hn : CtrlName) (p : String)
    (h : WF t) : WFafter (run_control t hn p) := by
  cases hn with
  | CUU => exact CUU_WF t (some p) h
  | CUD => exact CUD_WF t (some p) h
  | CUF => exact CUF_WF t (some p) h
  | CUB => exact CUB_WF t (some p) h
  | CNL => exact CNL_WF t (some p) h
  | CPL => exact CPL_WF t (some p) h
  | CHA => exact CHA_WF t (some p) h
  | CUP => exact CUP_WF t (some p) h
  | CHT => exact CHT_WF t (some p) h
  | ED => exact ED_WF t (some p) h
  | EL => exact EL_WF t (some p) h
  | IL => exact IL_WF t (some p) h
  | DL => exact DL_WF t (some p) h
  | DCH => exact DCH_WF t (some p) h
  | SU => exact SU_WF t (some p) h
  | SD => exact SD_WF t (some p) h
  | ECH => exact ECH_WF t (some p) h
  | CBT => exact CBT_WF t (some p) h
  | HPA => exact CHA_WF t (some p) h
  | HPR => exact CUF_WF t (some p) h
  | REP => exact REP_WF t (some p) h
  | VPA => exact VPA_WF t (some p) h
  | VPR => exact CUD_WF t (some p) h
  | HVP => exact CUP_WF t (some p) h
  | TBC => exact TBC_WF t (some p) h
  | HPB => exact CUB_WF t (some p) h
  | VPB => exact CUU_WF t (some p) h
  | SGR => exact SGR_WF t p h
  | _ => exact h

theorem run_escape_WF (t : Terminal) (hn : EscName) (h : WF t) :
    WFafter (run_escape t hn) := by
  cases hn
  all_goals
    first
    | exact IND_WF t h
    | exact NEL_WF t h
    | exact RI_WF t h
    | exact h

theorem dispatch_escape_WF (t : Terminal) (c : Char) (h : WF t) :
    WFafter (dispatch_escape t c) := by
  unfold dispatch_escape
  cases escape_sequences (String.singleton c) with
  | some hname => exact run_escape_WF t hname h
  | none => exact h

theorem dispatch_control_sequence_WF (t : Terminal) (c : Char) (h : WF t) :
    WFafter (dispatch_control_sequence t c) := by
  unfold dispatch_control_sequence
  dsimp only
  have hcol : WF (collect t c) := h
  cases csi_match (collect t c).collected.data with
  | none => exact hcol
  | some pc =>
      dsimp only
      cases control_sequences pc.2 with
      | none => exact hcol
      | some hname =>
          dsimp only
          cases hrc : run_control (collect t c) hname pc.1 with
          | ok t' =>
              have hwf := run_control_WF (collect t c) hname pc.1 hcol
              rw [hrc] at hwf
              exact hwf
          | error e =>
              cases e
              · exact hcol
              · exact trivial
              · exact trivial
              · exact trivial

theorem parse_ground_WF (t : Terminal) (c : Char) (h : WF t) :
    WFafter (parse_ground t c) := by
  unfold parse_ground
  dsimp only
  split_ifs
  · exact execute_WF _ c h
  · exact output_WF _ c h

theorem parse_escape_WF (t : Terminal) (c : Char) (h : WF t) :
    WFafter (parse_escape t c) := by
  unfold parse_escape
  split_ifs
  · exact execute_WF t c h
  · exact h
  · exact dispatch_escape_WF _ c h
  · exact h

theorem parse_control_sequence_WF (t : Terminal) (c : Char) (h : WF t) :
    WFafter (parse_control_sequence t c) := by
  unfold parse_control_sequence
  split_ifs
  · exact execute_WF t c h
  · exact h
  · exact dispatch_control_sequence_WF _ c h
  · exact h

theorem parse_control_string_WF (t : Terminal) (c : Char) (h : WF t) :
    WF (parse_control_string t c) := by
  unfold parse_control_string finish_control_string collect
  dsimp only
  split_ifs <;> exact h

theorem enter_hook_WF (t : Terminal) (h : WF t) : WF (enter_hook t) := by
  unfold enter_hook
  split <;> exact h

theorem transition_WF (t : Terminal) (h : WF t) : WF (transition t) := by
  unfold transition
  dsimp only
  split_ifs
  · exact enter_hook_WF _ h
  · exact h

theorem parse_single_WF (t : Terminal) (c : Char) (h : WF t) :
    WFafter (parse_single t c) := by
  unfold parse_single
  dsimp only
  cases hst : t.state with
  | ground =>
      exact WFafter_bind (parse_ground_WF _ c h) (fun u hu => transition_WF u hu)
  | escape =>
      exact WFafter_bind (parse_escape_WF _ c h) (fun u hu => transition_WF u hu)
  | control_sequence =>
      exact WFafter_bind (parse_control_sequence_WF _ c h)
        (fun u hu => transition_WF u hu)
  | osc =>
      exact WFafter_bind (WFafter_ok (parse_control_string_WF _ c h))
        (fun u hu => transition_WF u hu)
  | sos =>
      exact WFafter_bind (WFafter_ok (parse_control_string_WF _ c h))
        (fun u hu => transition_WF u hu)
  | pm =>
      exact WFafter_bind (WFafter_ok (parse_control_string_WF _ c h))
        (fun u hu => transition_WF u hu)
  | apc =>
      exact WFafter_bind (WFafter_ok (parse_control_string_WF _ c h))
        (fun u hu => transition_WF u hu)
  | dcs => exact trivial

/-- Claim C9.  The cursor bounds invariant `0 ≤ row < height`,
`0 ≤ col ≤ width` holds of a freshly constructed default terminal and is
preserved by every successful `parse_single` step — every C0 command
(including `BS` at column 0 and `HT`), every escape sequence, and every
control sequence (`CUU`/`CUD`/`CUF`/`CUB`/`CHA`/`CUP`/`VPA` with
arbitrarily large parameters clip into range, erase/scroll operations
never move the cursor).  `col = width` occurs only transiently after a
write to the last column, and the next printable character in the ground
state first performs a line feed plus carriage return (`NEL`): away from
the bottom row it is written at `(row+1, 0)` and the cursor ends at
column 1. -/
theorem C9_cursor_bounds_invariant (t : Terminal) (c : Char) (h : WF t) :
    WF (mkTerm 24 80) ∧
    WFafter (parse_single t c) ∧
    (t.state = PState.ground → 0x20 ≤ c.toNat → t.col = (t.width : Int) →
     t.row < (t.height : Int) - 1 →
      parse_single t c = Except.ok { t with
        previous := t.current, current := c,
        nextState := none, prevState := some PState.ground,
        state := PState.ground,
        row := t.row + 1,
        screen := setCell t.screen (t.row + 1) 0 (some ⟨c, t.attr⟩),
        col := 1 }) := by
  refine ⟨?_, parse_single_WF t c h, ?_⟩
  · unfold mkTerm WF
    dsimp only
    omega
  · intro hst hc hcol hrow
    obtain ⟨st, ps, ns, hist, w, hgt, scr, r, co, pv, cu, tb, att, coll⟩ := t
    simp only at hst hcol hrow ⊢
    subst hst
    subst hcol
    have h1 : ¬ (c.toNat < 0x20) := by omega
    simp only [parse_single, parse_ground, output, NEL, IND, h1, if_false,
      if_pos hrow, ge_iff_le, le_refl, if_true, transition, enter_hook]
    rfl

/-- Witness for C9 at a fresh 2×2 terminal and the printable `'A'`
(which also exercises the pending-wrap clause vacuously: the fresh
cursor is at column 0). -/
theorem C9_cursor_bounds_invariant_witness :
    WF (mkTerm 2 2) ∧
    (WF (mkTerm 24 80) ∧
     WFafter (parse_single (mkTerm 2 2) 'A') ∧
     ((mkTerm 2 2).state = PState.ground → 0x20 ≤ 'A'.toNat →
      (mkTerm 2 2).col = ((mkTerm 2 2).width : Int) →
      (mkTerm 2 2).row < ((mkTerm 2 2).height : Int) - 1 →
      parse_single (mkTerm 2 2) 'A' = Except.ok { mkTerm 2 2 with
        previous := (mkTerm 2 2).current, current := 'A',
        nextState := none, prevState := some PState.ground,
        state := PState.ground,
        row := (mkTerm 2 2).row + 1,
        screen := setCell (mkTerm 2 2).screen ((mkTerm 2 2).row + 1) 0
                    (some ⟨'A', (mkTerm 2 2).attr⟩),
        col := 1 })) :=
  ⟨by decide, C9_cursor_bounds_invariant (mkTerm 2 2) 'A' (by decide)⟩
